import Mathlib

/-!
# Secret entry in `src/common/password.cpp`

A shallow embedding of the password prompt of the wallet: the two readers
(`read_from_tty`, `read_from_file`), the scrub `clear`, the confirm-and-retry
loop, `password_container::prompt` and `login::parse`.

Bytes are natural numbers below 256.  A `std::string` is modelled by its
character storage split at its length.  Standard input, the display and the
terminal mode are fields of an explicit `World` that every operation threads.
-/

namespace Stellite

/-! ## `std::string` -/

/-- A `std::string`: `content` holds the `size()` bytes of the string and
`slack` the reserved bytes behind them, so the backing storage is
`content ++ slack` and `capacity()` is its length.  The terminating NUL that
follows the storage is not modelled. -/
structure CppString where
  content : List Nat
  slack : List Nat
deriving DecidableEq

namespace CppString

/-- Model of `size()`. -/
def size (s : CppString) : Nat := s.content.length

/-- Model of `capacity()`. -/
def capacity (s : CppString) : Nat := s.content.length + s.slack.length

/-- The bytes of the backing storage, over the whole capacity. -/
def storage (s : CppString) : List Nat := s.content ++ s.slack

/-- Model of `empty()`. -/
def empty (s : CppString) : Bool := s.content.isEmpty

/-- The default constructor `std::string()`: no bytes; the reserved storage an
implementation starts with is taken to be empty. -/
def mk0 : CppString := ⟨[], []⟩

/-- A string constructed from bytes (`substr` results, moved-in arguments seen
by their value): the storage holds exactly the bytes. -/
def ofList (l : List Nat) : CppString := ⟨l, []⟩

/-- Model of `reserve(n)`: nothing when the capacity suffices; otherwise the bytes move
to a new storage of `n` bytes whose unused part holds whatever the allocator
returned, here the byte `fresh`. -/
def reserve (fresh : Nat) (n : Nat) (s : CppString) : CppString :=
  if n ≤ s.capacity then s
  else ⟨s.content, List.replicate (n - s.size) fresh⟩

/-- Model of `push_back(c)`: written in place when a reserved byte is free, otherwise
into a grown storage (growth is an implementation matter; the readers reserve
before they push, so they never take that branch). -/
def push_back (c : Nat) (s : CppString) : CppString :=
  match s.slack with
  | [] => ⟨s.content ++ [c], []⟩
  | _ :: sl => ⟨s.content ++ [c], sl⟩

/-- Model of `back() = c`: overwrite the last byte (nothing to overwrite when empty). -/
def set_back (c : Nat) (s : CppString) : CppString :=
  ⟨s.content.set (s.content.length - 1) c, s.slack⟩

/-- Model of `resize(n)`: shrinking keeps the storage and moves the length, growing
appends NUL bytes (in place when they fit). -/
def resize (n : Nat) (s : CppString) : CppString :=
  if n ≤ s.size then ⟨s.content.take n, s.content.drop n ++ s.slack⟩
  else if n ≤ s.capacity then
    ⟨s.content ++ List.replicate (n - s.size) 0, s.slack.drop (n - s.size)⟩
  else ⟨s.content ++ List.replicate (n - s.size) 0, []⟩

/-- Model of `replace(pos, count, n2, ch)` for `pos ≤ size()`: the bytes
`[pos, pos + min count (size - pos))` are replaced by `n2` copies of `ch`;
done in place when the new length fits the capacity, the bytes of the storage
behind the new length staying as they were. -/
def replace (pos count n2 ch : Nat) (s : CppString) : CppString :=
  let cnt := min count (s.size - pos)
  let c := s.content.take pos ++ List.replicate n2 ch ++ s.content.drop (pos + cnt)
  if c.length ≤ s.capacity then ⟨c, s.storage.drop c.length⟩
  else ⟨c, []⟩

/-- Model of `clear()` of `std::string`: the length becomes zero, the storage stays. -/
def clear (s : CppString) : CppString := ⟨[], s.storage⟩

end CppString

/-! ## The world -/

/-- What one read attempt on standard input finds. -/
inductive Input where
  | byte (b : Nat)
  | eof
  | error
deriving DecidableEq

/-- The environment of the program.  `stdin` lists what the successive read
attempts find; once it is exhausted every read finds end of file.
`prompt_calls` and `read_failures` are ghost counters: they record calls of
`password_container::prompt` and failed keystroke reads, and nothing reads
them. -/
structure World where
  stdin : List Input
  stdin_is_tty : Bool
  cin_eofbit : Bool
  cin_failbit : Bool
  cin_badbit : Bool
  stdout : List Nat
  tty_mode : Nat
  fresh : Nat
  prompt_calls : Nat
  read_failures : Nat
deriving DecidableEq

/-- Model of `EOF` of `<stdio.h>`. -/
def EOF : Int := -1

/-- The conversion of an `int` to `char`, as a byte. -/
def toChar (ch : Int) : Nat := (ch % 256).toNat

/-- Model of `std::cout << bytes`. -/
def cout (bytes : List Nat) (w : World) : World :=
  { w with stdout := w.stdout ++ bytes }

/-- Model of `is_cin_tty()`. -/
def is_cin_tty (w : World) : Bool := w.stdin_is_tty

/-- Model of `getchar()`: the next byte as an `int`, or `EOF` at end of file and on a
read error. -/
def getchar (w : World) : Int × World :=
  match w.stdin with
  | [] => (EOF, { w with read_failures := w.read_failures + 1 })
  | Input.byte b :: rest => (((b % 256 : Nat) : Int), { w with stdin := rest })
  | _ :: rest => (EOF, { w with stdin := rest, read_failures := w.read_failures + 1 })

/-- Model of `ICANON` of `<termios.h>` (Linux). -/
def ICANON : Nat := 2

/-- Model of `ECHO` of `<termios.h>` (Linux). -/
def ECHO : Nat := 8

/-- Model of `flags & ~mask` on naturals. -/
def clearBits (flags mask : Nat) : Nat := flags ^^^ (flags &&& mask)

/-- Model of `getch()`: one raw keystroke, read with canonical mode and echo switched
off and the previous terminal mode put back afterwards. -/
def getch (w : World) : Int × World :=
  let tty_old := w.tty_mode
  let tty_new := clearBits tty_old (ICANON ||| ECHO)
  let r := getchar { w with tty_mode := tty_new }
  (r.1, { r.2 with tty_mode := tty_old })

theorem getch_stdin_le (w : World) : (getch w).2.stdin.length ≤ w.stdin.length := by
  unfold getch getchar
  rcases h : w.stdin with _ | ⟨i, rest⟩
  · simp
  · cases i <;> simp

theorem getch_stdin_lt (w : World) (h : (getch w).1 ≠ EOF) :
    (getch w).2.stdin.length < w.stdin.length := by
  unfold getch getchar at *
  rcases h' : w.stdin with _ | ⟨i, rest⟩
  · simp [h'] at h
  · cases i <;> simp_all

/-! ## The terminal reader -/

/-- Model of `BACKSPACE` of the POSIX reader. -/
def BACKSPACE : Int := 127

/-- What a reader hands back: its return value, the buffer it was given by
reference, and the world. -/
structure ReadResult where
  ok : Bool
  pass : CppString
  world : World
deriving DecidableEq

/-- The `while` loop of `read_from_tty(std::string&)` (POSIX).  The keystroke
`ch` of an iteration is `(getch w).1`, read in the world `w` the iteration
starts in, and `(getch w).2` is the world after that read. -/
def read_from_tty_loop (max_password_size : Nat) (aPass : CppString) (w : World) :
    ReadResult :=
  if aPass.size < max_password_size then
    if hE : EOF = (getch w).1 then
      ⟨false, aPass, (getch w).2⟩
    else if (getch w).1 = 10 ∨ (getch w).1 = 13 then
      ⟨true, aPass, cout [10] (getch w).2⟩
    else if (getch w).1 = BACKSPACE then
      if ¬ aPass.empty then
        read_from_tty_loop max_password_size
          ((aPass.set_back 0).resize (aPass.size - 1)) (cout [8, 32, 8] (getch w).2)
      else
        read_from_tty_loop max_password_size aPass (getch w).2
    else
      read_from_tty_loop max_password_size
        (aPass.push_back (toChar (getch w).1)) (cout [42] (getch w).2)
  else
    ⟨true, aPass, w⟩
termination_by w.stdin.length
decreasing_by
  all_goals simp_wf
  all_goals exact getch_stdin_lt w (fun h => hE h.symm)

/-- Model of `read_from_tty(std::string& aPass)` (POSIX). -/
def read_from_tty (max_password_size : Nat) (aPass : CppString) (w : World) : ReadResult :=
  read_from_tty_loop max_password_size (aPass.reserve w.fresh max_password_size) w

theorem cout_stdin (b : List Nat) (w : World) : (cout b w).stdin = w.stdin := rfl

theorem read_from_tty_loop_stdin_le (m : Nat) :
    ∀ (n : Nat) (p : CppString) (w : World), w.stdin.length = n →
      (read_from_tty_loop m p w).world.stdin.length ≤ w.stdin.length := by
  intro n
  induction n using Nat.strong_induction_on with
  | _ n ih =>
    intro p w hn
    have hlt := getch_stdin_lt w
    have hle := getch_stdin_le w
    rw [read_from_tty_loop]
    split_ifs with h1 h2 h3 h4 h5
    · exact hle
    · simpa [cout] using hle
    · have := ih _ (by rw [← hn]; exact hlt (fun h => h2 h.symm)) p (getch w).2 rfl
      omega
    · have := ih _ (by rw [← hn]; exact hlt (fun h => h2 h.symm))
        ((p.set_back 0).resize (p.size - 1)) (cout [8, 32, 8] (getch w).2) rfl
      rw [cout_stdin] at this
      omega
    · have := ih _ (by rw [← hn]; exact hlt (fun h => h2 h.symm))
        (p.push_back (toChar (getch w).1)) (cout [42] (getch w).2) rfl
      rw [cout_stdin] at this
      omega
    · exact le_refl _

theorem read_from_tty_loop_stdin_lt (m : Nat) (p : CppString) (w : World)
    (hp : p.size < m) (hok : (read_from_tty_loop m p w).ok = true) :
    (read_from_tty_loop m p w).world.stdin.length < w.stdin.length := by
  have hlt := getch_stdin_lt w
  rw [read_from_tty_loop] at hok ⊢
  rw [if_pos hp] at hok ⊢
  split_ifs at hok ⊢ with h2 h3 h4 h5
  · simpa [cout] using hlt (fun h => h2 h.symm)
  · have := read_from_tty_loop_stdin_le m _ p (getch w).2 rfl
    have := hlt (fun h => h2 h.symm)
    omega
  · have := read_from_tty_loop_stdin_le m _
      ((p.set_back 0).resize (p.size - 1)) (cout [8, 32, 8] (getch w).2) rfl
    rw [cout_stdin] at this
    have := hlt (fun h => h2 h.symm)
    omega
  · have := read_from_tty_loop_stdin_le m _
      (p.push_back (toChar (getch w).1)) (cout [42] (getch w).2) rfl
    rw [cout_stdin] at this
    have := hlt (fun h => h2 h.symm)
    omega

theorem read_from_tty_loop_full (m : Nat) (p : CppString) (w : World) (hp : ¬ p.size < m) :
    read_from_tty_loop m p w = ⟨true, p, w⟩ := by
  rw [read_from_tty_loop, if_neg hp]

/-! ## The terminal reader of the Windows build -/

/-- Model of `BACKSPACE` of the Windows reader. -/
def BACKSPACE_WIN32 : Nat := 8

/-- Model of `ENABLE_LINE_INPUT` of `<windows.h>`. -/
def ENABLE_LINE_INPUT : Nat := 2

/-- Model of `ENABLE_ECHO_INPUT` of `<windows.h>`. -/
def ENABLE_ECHO_INPUT : Nat := 4

/-- Model of `ReadConsoleA(h_cin, &ch, 1, &read, NULL)`: whether the call returned
`TRUE` with `read == 1`, and the byte `ch` (of no use after a failure). -/
def ReadConsoleA (w : World) : (Bool × Nat) × World :=
  match w.stdin with
  | [] => ((false, 0), { w with read_failures := w.read_failures + 1 })
  | Input.byte b :: rest => ((true, b % 256), { w with stdin := rest })
  | _ :: rest => ((false, 0), { w with stdin := rest, read_failures := w.read_failures + 1 })

theorem ReadConsoleA_stdin_lt (w : World) (h : (ReadConsoleA w).1.1 = true) :
    (ReadConsoleA w).2.stdin.length < w.stdin.length := by
  unfold ReadConsoleA at *
  rcases h' : w.stdin with _ | ⟨i, rest⟩
  · simp [h'] at h
  · cases i <;> simp_all

/-- The `while` loop of `read_from_tty(std::string&)` (`_WIN32`).  `r` of an
iteration is `(ReadConsoleA w).1.1` and `ch` is `(ReadConsoleA w).1.2`; when
the loop condition fails `r` is still `true`, from its initialiser or from the
last read that succeeded. -/
def read_from_tty_win32_loop (max_password_size : Nat) (pass : CppString) (w : World) :
    ReadResult :=
  if pass.size < max_password_size then
    if hR : (ReadConsoleA w).1.1 = true then
      if (ReadConsoleA w).1.2 = 10 ∨ (ReadConsoleA w).1.2 = 13 then
        ⟨true, pass, cout [10] (ReadConsoleA w).2⟩
      else if (ReadConsoleA w).1.2 = BACKSPACE_WIN32 then
        if ¬ pass.empty then
          read_from_tty_win32_loop max_password_size
            ((pass.set_back 0).resize (pass.size - 1)) (cout [8, 32, 8] (ReadConsoleA w).2)
        else
          read_from_tty_win32_loop max_password_size pass (ReadConsoleA w).2
      else
        read_from_tty_win32_loop max_password_size
          (pass.push_back (ReadConsoleA w).1.2) (cout [42] (ReadConsoleA w).2)
    else
      ⟨false, pass, (ReadConsoleA w).2⟩
  else
    ⟨true, pass, w⟩
termination_by w.stdin.length
decreasing_by
  all_goals simp_wf
  all_goals exact ReadConsoleA_stdin_lt w hR

/-- Model of `read_from_tty(std::string& pass)` (`_WIN32`): echo and line input are
switched off around the loop and the previous console mode is put back. -/
def read_from_tty_win32 (max_password_size : Nat) (pass : CppString) (w : World) :
    ReadResult :=
  let mode_old := w.tty_mode
  let mode_new := clearBits mode_old (ENABLE_ECHO_INPUT ||| ENABLE_LINE_INPUT)
  let r := read_from_tty_win32_loop max_password_size
    (pass.reserve w.fresh max_password_size) { w with tty_mode := mode_new }
  ⟨r.ok, r.pass, { r.world with tty_mode := mode_old }⟩

/-! ## The scrub and the confirm-and-retry loop -/

/-- Model of `clear(std::string& pass)`: `pass.replace(0, pass.capacity(),
pass.capacity(), 0)` followed by `pass.clear()`. -/
def clear (pass : CppString) : CppString :=
  (pass.replace 0 pass.capacity pass.capacity 0).clear

theorem clear_size (p : CppString) : (clear p).size = 0 := rfl

theorem reserve_content (f n : Nat) (p : CppString) : (p.reserve f n).content = p.content := by
  unfold CppString.reserve
  split_ifs <;> rfl

/-- The bytes of a string literal. -/
def bytes (s : String) : List Nat := s.toList.map Char.toNat

/-- Model of `if (message) std::cout << message << ": "`. -/
def show_message (message : Option (List Nat)) (w : World) : World :=
  match message with
  | some m => cout (m ++ bytes ": ") w
  | none => w

theorem show_message_stdin (message : Option (List Nat)) (w : World) :
    (show_message message w).stdin = w.stdin := by
  cases message <;> rfl

theorem reserve_size (f n : Nat) (p : CppString) : (p.reserve f n).size = p.size := by
  unfold CppString.size
  rw [reserve_content]

theorem read_from_tty_stdin_le (m : Nat) (p : CppString) (w : World) :
    (read_from_tty m p w).world.stdin.length ≤ w.stdin.length :=
  read_from_tty_loop_stdin_le m _ _ w rfl

theorem read_from_tty_stdin_lt (m : Nat) (p : CppString) (w : World)
    (hp : p.size < m) (hok : (read_from_tty m p w).ok = true) :
    (read_from_tty m p w).world.stdin.length < w.stdin.length :=
  read_from_tty_loop_stdin_lt m _ w (by rw [reserve_size]; exact hp) hok

theorem read_from_tty_full (m : Nat) (p : CppString) (w : World) (hp : ¬ p.size < m) :
    read_from_tty m p w = ⟨true, p.reserve w.fresh m, w⟩ :=
  read_from_tty_loop_full m _ w (by rw [reserve_size]; exact hp)

theorem read_from_tty_verify_decreases (m : Nat) (message : Option (List Nat))
    (pass1 pass2 : CppString) (w : World) (b1 b2 : List Nat)
    (h1 : (read_from_tty m pass1 (show_message message w)).ok = true)
    (hne : (read_from_tty m pass1 (show_message message w)).pass.content ≠
      (read_from_tty m pass2
        (cout b1 (read_from_tty m pass1 (show_message message w)).world)).pass.content) :
    2 * (cout b2 (read_from_tty m pass2
        (cout b1 (read_from_tty m pass1 (show_message message w)).world)).world).stdin.length
      < 2 * w.stdin.length + (if pass1.size = 0 ∧ pass2.size = 0 then 0 else 1) := by
  have e1 := read_from_tty_stdin_le m pass1 (show_message message w)
  have e2 := read_from_tty_stdin_le m pass2
    (cout b1 (read_from_tty m pass1 (show_message message w)).world)
  rw [cout_stdin] at e2 ⊢
  rw [show_message_stdin] at e1
  split_ifs with hz
  · obtain ⟨z1, z2⟩ := hz
    by_cases hm : 0 < m
    · have := read_from_tty_stdin_lt m pass1 (show_message message w) (by omega) h1
      rw [show_message_stdin] at this
      omega
    · exfalso
      apply hne
      rw [read_from_tty_full m pass1 _ (by omega), read_from_tty_full m pass2 _ (by omega)]
      simp only [reserve_content]
      have c1 : pass1.content = [] := List.length_eq_zero.mp z1
      have c2 : pass2.content = [] := List.length_eq_zero.mp z2
      rw [c1, c2]
  · omega

/-- What `read_from_tty(verify, message, pass1, pass2)` hands back: its return
value, the two buffers it was given by reference, and the world. -/
structure VerifyResult where
  ok : Bool
  pass1 : CppString
  pass2 : CppString
  world : World
deriving DecidableEq

/-- Model of `read_from_tty(verify, message, pass1, pass2)`: the `while (true)` loop is
the recursion, one call per iteration. -/
def read_from_tty_verify (max_password_size : Nat) (verify : Bool)
    (message : Option (List Nat)) (pass1 pass2 : CppString) (w : World) : VerifyResult :=
  let r1 := read_from_tty max_password_size pass1 (show_message message w)
  if ¬ r1.ok then
    ⟨false, r1.pass, pass2, r1.world⟩
  else if verify then
    let r2 := read_from_tty max_password_size pass2 (cout (bytes "Confirm Password: ") r1.world)
    if ¬ r2.ok then
      ⟨false, r1.pass, r2.pass, r2.world⟩
    else if r1.pass.content ≠ r2.pass.content then
      read_from_tty_verify max_password_size verify message (clear r1.pass) (clear r2.pass)
        (cout (bytes "Passwords do not match! Please try again." ++ [10]) r2.world)
    else
      ⟨true, r1.pass, r2.pass, r2.world⟩
  else
    ⟨true, r1.pass, pass2, r1.world⟩
termination_by 2 * w.stdin.length + (if pass1.size = 0 ∧ pass2.size = 0 then 0 else 1)
decreasing_by
  simp_wf
  rw [clear_size, clear_size]
  simp only [and_self, if_true, Nat.add_zero]
  exact read_from_tty_verify_decreases max_password_size message pass1 pass2 w _ _
    (by simpa using ‹¬¬r1.ok = true›) ‹_›

/-! ## The stream reader -/

/-- Model of `std::cin.get()`: when the stream is not `good()` nothing is read and
`failbit` is set; otherwise the next byte is returned, or `EOF` with `eofbit`
and `failbit` set at the end of the stream, or `EOF` with `badbit` set on a
read error. -/
def cin_get (w : World) : Int × World :=
  if w.cin_eofbit ∨ w.cin_failbit ∨ w.cin_badbit then
    (EOF, { w with cin_failbit := true })
  else
    match w.stdin with
    | [] => (EOF, { w with cin_eofbit := true, cin_failbit := true })
    | Input.byte b :: rest => (((b % 256 : Nat) : Int), { w with stdin := rest })
    | Input.eof :: rest =>
      (EOF, { w with stdin := rest, cin_eofbit := true, cin_failbit := true })
    | Input.error :: rest => (EOF, { w with stdin := rest, cin_badbit := true })

/-- Model of `std::cin.eof()`. -/
def cin_eof (w : World) : Bool := w.cin_eofbit

/-- Model of `std::cin.fail()`. -/
def cin_fail (w : World) : Bool := w.cin_failbit || w.cin_badbit

/-- The `for` loop of `read_from_file`, by the number `n` of iterations that
`i < max_password_size` still allows.  The byte `ch` of an iteration is
`toChar (cin_get w).1`, and `(cin_get w).2` is the world after the read. -/
def read_from_file_loop : Nat → CppString → World → ReadResult
  | 0, pass, w => ⟨true, pass, w⟩
  | n + 1, pass, w =>
    if cin_eof (cin_get w).2 ∨ toChar (cin_get w).1 = 10 ∨ toChar (cin_get w).1 = 13 then
      ⟨true, pass, (cin_get w).2⟩
    else if cin_fail (cin_get w).2 then
      ⟨false, pass, (cin_get w).2⟩
    else
      read_from_file_loop n (pass.push_back (toChar (cin_get w).1)) (cin_get w).2

/-- Model of `read_from_file(std::string& pass)`. -/
def read_from_file (max_password_size : Nat) (pass : CppString) (w : World) : ReadResult :=
  read_from_file_loop max_password_size (pass.reserve w.fresh max_password_size) w

/-! ## `password_container` and `login` -/

/-- Model of `tools::password_container`: the secret it owns. -/
structure password_container where
  m_password : CppString
deriving DecidableEq

/-- Model of `password_container::~password_container()`: the state of the member when
the storage is released. -/
def password_container.destroy (p : password_container) : password_container :=
  ⟨clear p.m_password⟩

/-- Model of `password_container::prompt(verify, message)`.  `pass1` and `pass2`
start as default-constructed strings; the value returned is `pass1`, moved
out.  The suspension of the line editor under `HAVE_READLINE` and the
destructors that run at the end do not show in the result and are left out. -/
def password_container.prompt (max_password_size : Nat) (verify : Bool)
    (message : Option (List Nat)) (w : World) : Option password_container × World :=
  let w1 := { w with prompt_calls := w.prompt_calls + 1 }
  if is_cin_tty w1 then
    let r := read_from_tty_verify max_password_size verify message CppString.mk0 CppString.mk0 w1
    if r.ok then (some ⟨r.pass1⟩, r.world) else (none, r.world)
  else
    let r := read_from_file max_password_size CppString.mk0 w1
    if r.ok then (some ⟨r.pass⟩, r.world) else (none, r.world)

/-- Model of `tools::login`. -/
structure login where
  username : CppString
  password : password_container
deriving DecidableEq

/-- Model of `find(c)`: the index of the first `c`, `none` standing for `npos`. -/
def CppString.find (c : Nat) (s : CppString) : Option Nat :=
  if s.content.indexOf c < s.size then some (s.content.indexOf c) else none

/-- Model of `substr(pos, count)`, a new string; `none` for `count` is `npos`, which
takes everything from `pos` on (as does the omitted argument). -/
def CppString.substr (pos : Nat) (count : Option Nat) (s : CppString) : CppString :=
  match count with
  | none => CppString.ofList (s.content.drop pos)
  | some n => CppString.ofList ((s.content.drop pos).take n)

/-- Model of `login::parse(userpass, verify, message)`.  The character `:` is the
byte 58.  The scrub of `wipe` at the end does not show in the result and is
left out. -/
def login.parse (max_password_size : Nat) (userpass : CppString) (verify : Bool)
    (message : Option (List Nat)) (w : World) : Option login × World :=
  let wipe : password_container := ⟨userpass⟩
  let loc := wipe.m_password.find 58
  match loc with
  | none =>
    let result := password_container.prompt max_password_size verify message w
    match result.1 with
    | none => (none, result.2)
    | some p => (some ⟨wipe.m_password.substr 0 loc, p⟩, result.2)
  | some l =>
    (some ⟨wipe.m_password.substr 0 loc, ⟨wipe.m_password.substr (l + 1) none⟩⟩, w)

/-! ## Definitions the statements use

The keystrokes as the specification words them, the worlds the readers leave,
and the predicates of the theorems. -/

/-- One keystroke applied to the buffer the way the specification words it:
the backspace code removes the last byte if there is one, every other byte is
appended. -/
def applyKey (buf : List Nat) (k : Nat) : List Nat :=
  if k = 127 then buf.dropLast else buf ++ [k]

/-- The keystrokes applied left to right. -/
def applyKeys (buf : List Nat) (ks : List Nat) : List Nat := ks.foldl applyKey buf

/-- What one keystroke makes the display show when the buffer holds `n`
bytes: the erase sequence for a backspace that removes a byte, nothing for a
backspace on the empty buffer, one mask character otherwise. -/
def echoKey (n : Nat) (k : Nat) : List Nat :=
  if k = 127 then (if n = 0 then [] else [8, 32, 8]) else [42]

/-- The display of a run of keystrokes typed into the buffer `buf`. -/
def echoKeys : List Nat → List Nat → List Nat
  | _, [] => []
  | buf, k :: ks => echoKey buf.length k ++ echoKeys (applyKey buf k) ks

/-- One keystroke that is neither a terminator nor a failure, as the loop of
the POSIX reader treats it on the string itself. -/
def type_key (s : CppString) (k : Nat) : CppString :=
  if k = 127 then (if s.empty then s else (s.set_back 0).resize (s.size - 1))
  else s.push_back k

/-- A run of such keystrokes on the string. -/
def type_keys (s : CppString) (ks : List Nat) : CppString := ks.foldl type_key s

/-- The world after `rest` is what is left of standard input and `out` has
been written to the display. -/
def World.after (w : World) (rest : List Input) (out : List Nat) : World :=
  { w with stdin := rest, stdout := w.stdout ++ out }

/-- The world after a failed keystroke read that left `rest` unread. -/
def World.failed (w : World) (rest : List Input) : World :=
  { w with stdin := rest, read_failures := w.read_failures + 1 }

/-- A byte that does not end an entry. -/
def plain (k : Nat) : Prop := k < 256 ∧ k ≠ 10 ∧ k ≠ 13

instance (k : Nat) : Decidable (plain k) := by unfold plain; infer_instance

/-- Where an entry stops: standard input is exhausted, or its next read is a
failure or a terminator. -/
def stops : List Input → Prop
  | [] => True
  | Input.byte b :: _ => b % 256 = 10 ∨ b % 256 = 13
  | _ :: _ => True

/-- The stream `std::cin` is `good()`. -/
def cin_good (w : World) : Prop :=
  w.cin_eofbit = false ∧ w.cin_failbit = false ∧ w.cin_badbit = false

instance (w : World) : Decidable (cin_good w) := by unfold cin_good; infer_instance

/-- The world after `std::cin` met the end of the stream, `rest` unread. -/
def World.at_end (w : World) (rest : List Input) : World :=
  { w with stdin := rest, cin_eofbit := true, cin_failbit := true }

/-- The world after `std::cin` met a read error, `rest` unread. -/
def World.at_error (w : World) (rest : List Input) : World :=
  { w with stdin := rest, cin_badbit := true }

/-- The bytes `bs` pushed onto the string one after the other. -/
def push_all (s : CppString) (bs : List Nat) : CppString :=
  bs.foldl (fun t c => t.push_back c) s

/-- The three facts the frame lemmas carry: the ghost call counter and the
terminal mode are as before, and the failure counter moved by one exactly when
the reader returned `false`. -/
def framed (w : World) (ok : Bool) (w' : World) : Prop :=
  w'.prompt_calls = w.prompt_calls ∧ w'.tty_mode = w.tty_mode ∧
    w'.read_failures = w.read_failures + (if ok then 0 else 1)

/-- The classes of keystroke the terminal reader tells apart. -/
inductive KeyClass where
  | terminator
  | backspace
  | failure
  | other
deriving DecidableEq

/-- The class of what a keystroke read finds (POSIX backspace code). -/
def keyClass : Input → KeyClass
  | Input.byte b =>
    if b % 256 = 10 ∨ b % 256 = 13 then KeyClass.terminator
    else if b % 256 = 127 then KeyClass.backspace
    else KeyClass.other
  | _ => KeyClass.failure

/-- The display of an entry as a function of the maximum, the length of the
buffer and the classes of the keystrokes alone. -/
def displayOf (m : Nat) : Nat → List KeyClass → List Nat
  | _, [] => []
  | n, c :: cs =>
    if n < m then
      match c with
      | KeyClass.failure => []
      | KeyClass.terminator => [10]
      | KeyClass.backspace => if n = 0 then displayOf m 0 cs else [8, 32, 8] ++ displayOf m (n - 1) cs
      | KeyClass.other => [42] ++ displayOf m (n + 1) cs
    else []

/-- The class of what a keystroke read finds (Windows backspace code). -/
def keyClass_win32 : Input → KeyClass
  | Input.byte b =>
    if b % 256 = 10 ∨ b % 256 = 13 then KeyClass.terminator
    else if b % 256 = 8 then KeyClass.backspace
    else KeyClass.other
  | _ => KeyClass.failure

/-- One round as typed at the terminal: the keystrokes of the entry, its
terminator, the keystrokes of the confirmation, its terminator. -/
structure Attempt where
  first : List Nat
  first_end : Nat
  second : List Nat
  second_end : Nat
deriving DecidableEq

/-- Both entries of the round are runs of plain keystrokes shorter than the
maximum, each ended by `\n` or `\r`. -/
def Attempt.ok (m : Nat) (a : Attempt) : Prop :=
  (∀ k ∈ a.first, plain k) ∧ a.first.length < m ∧ (a.first_end = 10 ∨ a.first_end = 13) ∧
    (∀ k ∈ a.second, plain k) ∧ a.second.length < m ∧
    (a.second_end = 10 ∨ a.second_end = 13)

instance (m : Nat) (a : Attempt) : Decidable (a.ok m) := by unfold Attempt.ok; infer_instance

/-- The keystrokes of a round, in the order they are read. -/
def Attempt.keys (a : Attempt) : List Input :=
  a.first.map Input.byte ++ Input.byte a.first_end ::
    (a.second.map Input.byte ++ [Input.byte a.second_end])

/-- The keystrokes of several rounds. -/
def all_keys : List Attempt → List Input
  | [] => []
  | a :: as => a.keys ++ all_keys as

/-- What `show_message` writes. -/
def prompt_bytes (message : Option (List Nat)) : List Nat :=
  match message with
  | some m => m ++ bytes ": "
  | none => []

/-- The display of one round: the message, the masked entry, the confirmation
prompt, the masked confirmation. -/
def Attempt.display (message : Option (List Nat)) (a : Attempt) : List Nat :=
  prompt_bytes message ++ (echoKeys [] a.first ++ [10]) ++
    (bytes "Confirm Password: " ++ (echoKeys [] a.second ++ [10]))

/-- The display of rounds that each end in the mismatch notice. -/
def retry_display (message : Option (List Nat)) : List Attempt → List Nat
  | [] => []
  | a :: as =>
    a.display message ++ (bytes "Passwords do not match! Please try again." ++ [10]) ++
      retry_display message as

/-- Every reserved byte behind the string is zero or allocator filling. -/
def slack_clean (f : Nat) (s : CppString) : Prop := ∀ b ∈ s.slack, b = 0 ∨ b = f

/-- Every byte of the backing storage at an index at or beyond the length is
zero. -/
def zero_tail (s : CppString) : Prop := ∀ b ∈ s.slack, b = 0

instance (s : CppString) : Decidable (zero_tail s) := by unfold zero_tail; infer_instance

/-- The loop of `read_from_tty(verify, message, pass1, pass2)` run for at most
`n` iterations: the body is that of `read_from_tty_verify`, and the result is
`none` when the `n`-th iteration asks for one more. -/
def read_from_tty_verify_iter (max_password_size : Nat) (verify : Bool)
    (message : Option (List Nat)) : Nat → CppString → CppString → World → Option VerifyResult
  | 0, _, _, _ => none
  | n + 1, pass1, pass2, w =>
    let r1 := read_from_tty max_password_size pass1 (show_message message w)
    if ¬ r1.ok then
      some ⟨false, r1.pass, pass2, r1.world⟩
    else if verify then
      let r2 := read_from_tty max_password_size pass2
        (cout (bytes "Confirm Password: ") r1.world)
      if ¬ r2.ok then
        some ⟨false, r1.pass, r2.pass, r2.world⟩
      else if r1.pass.content ≠ r2.pass.content then
        read_from_tty_verify_iter max_password_size verify message n (clear r1.pass)
          (clear r2.pass)
          (cout (bytes "Passwords do not match! Please try again." ++ [10]) r2.world)
      else
        some ⟨true, r1.pass, r2.pass, r2.world⟩
    else
      some ⟨true, r1.pass, pass2, r1.world⟩

/-! ## One iteration of the terminal reader -/

theorem getch_byte (w : World) (b : Nat) (rest : List Input)
    (h : w.stdin = Input.byte b :: rest) :
    getch w = (((b % 256 : Nat) : Int), w.after rest []) := by
  unfold getch getchar World.after
  simp [h]

theorem getch_nil (w : World) (h : w.stdin = []) : getch w = (EOF, w.failed []) := by
  unfold getch getchar World.failed
  simp [h]

theorem getch_eof (w : World) (rest : List Input) (h : w.stdin = Input.eof :: rest) :
    getch w = (EOF, w.failed rest) := by
  unfold getch getchar World.failed
  simp [h]

theorem getch_error (w : World) (rest : List Input) (h : w.stdin = Input.error :: rest) :
    getch w = (EOF, w.failed rest) := by
  unfold getch getchar World.failed
  simp [h]

theorem after_after (w : World) (r r' : List Input) (o o' : List Nat) :
    (w.after r o).after r' o' = w.after r' (o ++ o') := by
  simp [World.after]

theorem cout_after (w : World) (r : List Input) (o o' : List Nat) :
    cout o' (w.after r o) = w.after r (o ++ o') := by
  simp [World.after, cout]

theorem after_self (w : World) : w.after w.stdin [] = w := by
  simp [World.after]

theorem toChar_byte (b : Nat) : toChar ((b % 256 : Nat) : Int) = b % 256 := by
  unfold toChar
  omega

theorem read_from_tty_loop_nil (m : Nat) (p : CppString) (w : World)
    (hp : p.size < m) (h : w.stdin = []) :
    read_from_tty_loop m p w = ⟨false, p, w.failed []⟩ := by
  rw [read_from_tty_loop, if_pos hp, getch_nil w h]
  simp

theorem read_from_tty_loop_eof (m : Nat) (p : CppString) (w : World) (rest : List Input)
    (hp : p.size < m) (h : w.stdin = Input.eof :: rest) :
    read_from_tty_loop m p w = ⟨false, p, w.failed rest⟩ := by
  rw [read_from_tty_loop, if_pos hp, getch_eof w rest h]
  simp

theorem read_from_tty_loop_error (m : Nat) (p : CppString) (w : World) (rest : List Input)
    (hp : p.size < m) (h : w.stdin = Input.error :: rest) :
    read_from_tty_loop m p w = ⟨false, p, w.failed rest⟩ := by
  rw [read_from_tty_loop, if_pos hp, getch_error w rest h]
  simp

theorem read_from_tty_loop_terminator (m : Nat) (p : CppString) (w : World) (b : Nat)
    (rest : List Input) (hp : p.size < m) (h : w.stdin = Input.byte b :: rest)
    (hb : b % 256 = 10 ∨ b % 256 = 13) :
    read_from_tty_loop m p w = ⟨true, p, w.after rest [10]⟩ := by
  rw [read_from_tty_loop, if_pos hp, getch_byte w b rest h]
  have h1 : ¬ EOF = ((b % 256 : Nat) : Int) := by unfold EOF; omega
  have h2 : ((b % 256 : Nat) : Int) = 10 ∨ ((b % 256 : Nat) : Int) = 13 := by omega
  simp only [dif_neg h1, if_pos h2, cout_after, List.nil_append]

theorem read_from_tty_loop_key (m : Nat) (p : CppString) (w : World) (b : Nat)
    (rest : List Input) (hp : p.size < m) (h : w.stdin = Input.byte b :: rest)
    (hb : b % 256 ≠ 10 ∧ b % 256 ≠ 13) :
    read_from_tty_loop m p w =
      read_from_tty_loop m (type_key p (b % 256)) (w.after rest (echoKey p.size (b % 256))) := by
  rw [read_from_tty_loop, if_pos hp, getch_byte w b rest h]
  have h1 : ¬ EOF = ((b % 256 : Nat) : Int) := by unfold EOF; omega
  have h2 : ¬ (((b % 256 : Nat) : Int) = 10 ∨ ((b % 256 : Nat) : Int) = 13) := by omega
  simp only [dif_neg h1, if_neg h2, cout_after, List.nil_append, toChar_byte]
  by_cases hk : b % 256 = 127
  · have h3 : ((b % 256 : Nat) : Int) = BACKSPACE := by unfold BACKSPACE; omega
    rw [if_pos h3]
    by_cases he : p.empty = true
    · have hz : p.size = 0 := by
        simpa [CppString.empty, CppString.size] using he
      simp [type_key, echoKey, hk, he, hz]
    · have hz : p.size ≠ 0 := by
        simpa [CppString.empty, CppString.size] using he
      simp [type_key, echoKey, hk, he, hz]
  · have h3 : ¬ ((b % 256 : Nat) : Int) = BACKSPACE := by unfold BACKSPACE; omega
    rw [if_neg h3]
    simp [type_key, echoKey, hk]

/-! ## Runs of keystrokes -/

theorem push_back_content (s : CppString) (c : Nat) :
    (s.push_back c).content = s.content ++ [c] := by
  unfold CppString.push_back
  split <;> rfl

theorem type_key_content (s : CppString) (k : Nat) :
    (type_key s k).content = applyKey s.content k := by
  unfold type_key applyKey
  by_cases hk : k = 127
  · simp only [hk, if_true]
    by_cases he : s.empty = true
    · have hz : s.content = [] := by simpa [CppString.empty] using he
      simp [he, hz]
    · have hle : s.size - 1 ≤ (s.set_back 0).size := by
        simp [CppString.size, CppString.set_back]
      simp only [he, CppString.resize, if_pos hle]
      simp only [CppString.set_back, CppString.size, List.dropLast_eq_take]
      rw [List.set_take, List.set_eq_of_length_le (by simp)]
      simp
  · simp only [hk, if_false]
    exact push_back_content s k

theorem type_keys_content (ks : List Nat) :
    ∀ s : CppString, (type_keys s ks).content = applyKeys s.content ks := by
  induction ks with
  | nil => intro s; rfl
  | cons k ks ih =>
    intro s
    show (type_keys (type_key s k) ks).content = applyKeys (applyKey s.content k) ks
    rw [ih, type_key_content]

theorem applyKey_length_le (buf : List Nat) (k : Nat) :
    (applyKey buf k).length ≤ buf.length + 1 := by
  unfold applyKey
  split_ifs
  · simp only [List.length_dropLast]
    omega
  · simp

theorem type_key_size_le (s : CppString) (k : Nat) : (type_key s k).size ≤ s.size + 1 := by
  unfold CppString.size
  rw [type_key_content]
  exact applyKey_length_le _ _

theorem applyKeys_length_le (ks : List Nat) :
    ∀ buf : List Nat, (applyKeys buf ks).length ≤ buf.length + ks.length := by
  induction ks with
  | nil => intro buf; simp [applyKeys]
  | cons k ks ih =>
    intro buf
    have h1 := ih (applyKey buf k)
    have h2 := applyKey_length_le buf k
    simp only [applyKeys, List.foldl_cons, List.length_cons] at h1 ⊢
    omega

theorem plain_mod {k : Nat} (h : plain k) : k % 256 = k := Nat.mod_eq_of_lt h.1

/-- A run of plain keystrokes that fits below the maximum is consumed whole:
the loop continues from the edited buffer with the display extended. -/
theorem read_from_tty_loop_keys (m : Nat) (tail : List Input) (ks : List Nat) :
    ∀ (s : CppString) (w : World), (∀ k ∈ ks, plain k) → s.size + ks.length ≤ m →
      w.stdin = ks.map Input.byte ++ tail →
      read_from_tty_loop m s w =
        read_from_tty_loop m (type_keys s ks) (w.after tail (echoKeys s.content ks)) := by
  induction ks with
  | nil =>
    intro s w _ _ hin
    simp only [List.map_nil, List.nil_append] at hin
    simp [type_keys, echoKeys, ← hin, after_self]
  | cons k ks ih =>
    intro s w hk hlen hin
    have hpk : plain k := hk k (List.mem_cons_self _ _)
    have hmod := plain_mod hpk
    simp only [List.length_cons] at hlen
    have step := read_from_tty_loop_key m s w k (ks.map Input.byte ++ tail) (by omega)
      (by simpa using hin) (by rw [hmod]; exact hpk.2)
    rw [hmod] at step
    rw [step, ih (type_key s k) _ (fun x hx => hk x (List.mem_cons_of_mem _ hx))
      (by have := type_key_size_le s k; omega) rfl, after_after, type_key_content]
    rfl

theorem read_from_tty_loop_stops (m : Nat) (p : CppString) (w : World) (h : stops w.stdin) :
    (read_from_tty_loop m p w).pass = p := by
  by_cases hp : p.size < m
  · rcases hin : w.stdin with _ | ⟨i, rest⟩
    · rw [read_from_tty_loop_nil m p w hp hin]
    · cases i with
      | byte b =>
        rw [hin] at h
        rw [read_from_tty_loop_terminator m p w b rest hp hin h]
      | eof => rw [read_from_tty_loop_eof m p w rest hp hin]
      | error => rw [read_from_tty_loop_error m p w rest hp hin]
  · rw [read_from_tty_loop_full m p w hp]

/-! ## The stream reader, one read at a time -/

theorem after_good (w : World) (r : List Input) (o : List Nat) (h : cin_good w) :
    cin_good (w.after r o) := h

theorem read_from_file_loop_nil (n : Nat) (p : CppString) (w : World) (hg : cin_good w)
    (h : w.stdin = []) : read_from_file_loop (n + 1) p w = ⟨true, p, w.at_end []⟩ := by
  obtain ⟨g1, g2, g3⟩ := hg
  simp [read_from_file_loop, cin_get, cin_eof, World.at_end, g1, g2, g3, h]

theorem read_from_file_loop_eof (n : Nat) (p : CppString) (w : World) (rest : List Input)
    (hg : cin_good w) (h : w.stdin = Input.eof :: rest) :
    read_from_file_loop (n + 1) p w = ⟨true, p, w.at_end rest⟩ := by
  obtain ⟨g1, g2, g3⟩ := hg
  simp [read_from_file_loop, cin_get, cin_eof, World.at_end, g1, g2, g3, h]

theorem toChar_EOF : toChar EOF = 255 := by decide

theorem toChar_cast_mod (b : Nat) : toChar ((b : Int) % 256) = b % 256 := by
  unfold toChar
  omega

theorem read_from_file_loop_error (n : Nat) (p : CppString) (w : World) (rest : List Input)
    (hg : cin_good w) (h : w.stdin = Input.error :: rest) :
    read_from_file_loop (n + 1) p w = ⟨false, p, w.at_error rest⟩ := by
  obtain ⟨g1, g2, g3⟩ := hg
  simp [read_from_file_loop, cin_get, cin_eof, cin_fail, World.at_error, g1, g2, g3, h,
    toChar_EOF]

theorem read_from_file_loop_terminator (n : Nat) (p : CppString) (w : World) (b : Nat)
    (rest : List Input) (hg : cin_good w) (h : w.stdin = Input.byte b :: rest)
    (hb : b % 256 = 10 ∨ b % 256 = 13) :
    read_from_file_loop (n + 1) p w = ⟨true, p, w.after rest []⟩ := by
  obtain ⟨g1, g2, g3⟩ := hg
  simp [read_from_file_loop, cin_get, cin_eof, World.after, g1, g2, g3, h, toChar_cast_mod, hb]

theorem read_from_file_loop_byte (n : Nat) (p : CppString) (w : World) (b : Nat)
    (rest : List Input) (hg : cin_good w) (h : w.stdin = Input.byte b :: rest)
    (hb : b % 256 ≠ 10 ∧ b % 256 ≠ 13) :
    read_from_file_loop (n + 1) p w =
      read_from_file_loop n (p.push_back (b % 256)) (w.after rest []) := by
  obtain ⟨g1, g2, g3⟩ := hg
  simp [read_from_file_loop, cin_get, cin_eof, cin_fail, World.after, g1, g2, g3, h,
    toChar_cast_mod, hb.1, hb.2]

theorem push_all_content (bs : List Nat) :
    ∀ s : CppString, (push_all s bs).content = s.content ++ bs := by
  induction bs with
  | nil => intro s; simp [push_all]
  | cons b bs ih =>
    intro s
    show (push_all (s.push_back b) bs).content = _
    rw [ih, push_back_content]
    simp

/-- A run of bytes without terminator is pushed whole while iterations are
left. -/
theorem read_from_file_loop_bytes (tail : List Input) (bs : List Nat) :
    ∀ (n : Nat) (s : CppString) (w : World), cin_good w →
      (∀ b ∈ bs, b % 256 ≠ 10 ∧ b % 256 ≠ 13) → bs.length ≤ n →
      w.stdin = bs.map Input.byte ++ tail →
      read_from_file_loop n s w =
        read_from_file_loop (n - bs.length) (push_all s (bs.map (· % 256)))
          (w.after tail []) := by
  induction bs with
  | nil =>
    intro n s w _ _ _ hin
    simp only [List.map_nil, List.nil_append] at hin
    simp [push_all, ← hin, after_self]
  | cons b bs ih =>
    intro n s w hg hb hlen hin
    obtain ⟨k, rfl⟩ : ∃ k, n = k + 1 := ⟨n - 1, by simp only [List.length_cons] at hlen; omega⟩
    simp only [List.length_cons, Nat.add_le_add_iff_right] at hlen
    rw [read_from_file_loop_byte k s w b (bs.map Input.byte ++ tail) hg (by simpa using hin)
      (hb b (List.mem_cons_self _ _)),
      ih k _ _ (after_good w _ _ hg) (fun x hx => hb x (List.mem_cons_of_mem _ hx)) hlen rfl,
      after_after]
    simp [push_all]

theorem map_mod_plain (bs : List Nat) (h : ∀ b ∈ bs, plain b) : bs.map (· % 256) = bs := by
  induction bs with
  | nil => rfl
  | cons b bs ih =>
    simp only [List.map_cons, plain_mod (h b (List.mem_cons_self _ _))]
    rw [ih (fun x hx => h x (List.mem_cons_of_mem _ hx))]

theorem plain_not_terminator {bs : List Nat} (h : ∀ b ∈ bs, plain b) :
    ∀ b ∈ bs, b % 256 ≠ 10 ∧ b % 256 ≠ 13 := by
  intro b hb
  rw [plain_mod (h b hb)]
  exact (h b hb).2

theorem read_from_file_loop_fails (n : Nat) :
    ∀ (s : CppString) (w : World), cin_good w → (read_from_file_loop n s w).ok = false →
      ∃ (p : List Nat) (rest : List Input), w.stdin = p.map Input.byte ++ Input.error :: rest ∧ p.length < n ∧
        ∀ b ∈ p, b % 256 ≠ 10 ∧ b % 256 ≠ 13 := by
  induction n with
  | zero => intro s w _ h; simp [read_from_file_loop] at h
  | succ n ih =>
    intro s w hg h
    rcases hin : w.stdin with _ | ⟨i, rest⟩
    · rw [read_from_file_loop_nil n s w hg hin] at h
      simp at h
    · cases i with
      | byte b =>
        by_cases hb : b % 256 = 10 ∨ b % 256 = 13
        · rw [read_from_file_loop_terminator n s w b rest hg hin hb] at h
          simp at h
        · have hb' : b % 256 ≠ 10 ∧ b % 256 ≠ 13 := not_or.mp hb
          rw [read_from_file_loop_byte n s w b rest hg hin hb'] at h
          obtain ⟨p, r, h1, h2, h3⟩ := ih _ _ (after_good w rest [] hg) h
          refine ⟨b :: p, r, ?_, by simp only [List.length_cons]; omega, ?_⟩
          · have h1' : rest = p.map Input.byte ++ Input.error :: r := h1
            simp [h1']
          · intro x hx
            rcases List.mem_cons.mp hx with rfl | hx
            · exact hb'
            · exact h3 x hx
      | eof =>
        rw [read_from_file_loop_eof n s w rest hg hin] at h
        simp at h
      | error => exact ⟨[], rest, by simp, by simp, by simp⟩

/-! ## What the readers leave alone, and the failure counter -/

theorem cout_prompt_calls (b : List Nat) (w : World) :
    (cout b w).prompt_calls = w.prompt_calls := rfl

theorem cout_tty_mode (b : List Nat) (w : World) : (cout b w).tty_mode = w.tty_mode := rfl

theorem cout_read_failures (b : List Nat) (w : World) :
    (cout b w).read_failures = w.read_failures := rfl

theorem getch_frame (w : World) :
    (getch w).2.prompt_calls = w.prompt_calls ∧ (getch w).2.tty_mode = w.tty_mode ∧
      (getch w).2.read_failures = w.read_failures + (if EOF = (getch w).1 then 1 else 0) := by
  unfold getch getchar
  rcases h : w.stdin with _ | ⟨i, rest⟩
  · simp
  · cases i with
    | byte b =>
      have hne : ¬ EOF = ((b % 256 : Nat) : Int) := by unfold EOF; omega
      simp only [EOF] at hne ⊢
      simp
      omega
    | eof => simp
    | error => simp

theorem framed_step {w w1 w2 : World} {ok : Bool}
    (h1 : w1.prompt_calls = w.prompt_calls ∧ w1.tty_mode = w.tty_mode ∧
      w1.read_failures = w.read_failures) (h2 : framed w1 ok w2) : framed w ok w2 :=
  ⟨h2.1.trans h1.1, h2.2.1.trans h1.2.1, by rw [h2.2.2, h1.2.2]⟩

theorem getch_frame_ok (w : World) (hE : ¬ EOF = (getch w).1) (b : List Nat) :
    (cout b (getch w).2).prompt_calls = w.prompt_calls ∧
      (cout b (getch w).2).tty_mode = w.tty_mode ∧
      (cout b (getch w).2).read_failures = w.read_failures := by
  have := getch_frame w
  rw [if_neg hE] at this
  exact this

theorem read_from_tty_loop_frame (m : Nat) (p : CppString) (w : World) :
    framed w (read_from_tty_loop m p w).ok (read_from_tty_loop m p w).world := by
  induction p, w using read_from_tty_loop.induct m with
  | case1 p w hp hE =>
    have e : read_from_tty_loop m p w = ⟨false, p, (getch w).2⟩ := by
      rw [read_from_tty_loop, if_pos hp, dif_pos hE]
    rw [e]
    have := getch_frame w
    rw [if_pos hE] at this
    exact this
  | case2 p w hp hE ht =>
    have e : read_from_tty_loop m p w = ⟨true, p, cout [10] (getch w).2⟩ := by
      rw [read_from_tty_loop, if_pos hp, dif_neg hE, if_pos ht]
    rw [e]
    exact getch_frame_ok w hE _
  | case3 p w hp hE ht hb he ih =>
    have e : read_from_tty_loop m p w = read_from_tty_loop m
        ((p.set_back 0).resize (p.size - 1)) (cout [8, 32, 8] (getch w).2) := by
      conv_lhs => rw [read_from_tty_loop, if_pos hp, dif_neg hE, if_neg ht, if_pos hb, if_pos he]
    rw [e]
    exact framed_step (getch_frame_ok w hE _) ih
  | case4 p w hp hE ht hb he ih =>
    have e : read_from_tty_loop m p w = read_from_tty_loop m p (getch w).2 := by
      conv_lhs => rw [read_from_tty_loop, if_pos hp, dif_neg hE, if_neg ht, if_pos hb, if_neg he]
    rw [e]
    exact framed_step (getch_frame_ok w hE []) ih
  | case5 p w hp hE ht hb ih =>
    have e : read_from_tty_loop m p w = read_from_tty_loop m
        (p.push_back (toChar (getch w).1)) (cout [42] (getch w).2) := by
      conv_lhs => rw [read_from_tty_loop, if_pos hp, dif_neg hE, if_neg ht, if_neg hb]
    rw [e]
    exact framed_step (getch_frame_ok w hE _) ih
  | case6 p w hp =>
    rw [read_from_tty_loop_full m p w hp]
    exact ⟨rfl, rfl, rfl⟩

theorem read_from_tty_frame (m : Nat) (p : CppString) (w : World) :
    framed w (read_from_tty m p w).ok (read_from_tty m p w).world :=
  read_from_tty_loop_frame m _ w

/-! ## The confirm-and-retry loop, one iteration at a time -/

theorem read_from_tty_verify_fail1 (m : Nat) (v : Bool) (msg : Option (List Nat))
    (p1 p2 : CppString) (w : World)
    (h1 : (read_from_tty m p1 (show_message msg w)).ok = false) :
    read_from_tty_verify m v msg p1 p2 w =
      ⟨false, (read_from_tty m p1 (show_message msg w)).pass, p2,
        (read_from_tty m p1 (show_message msg w)).world⟩ := by
  rw [read_from_tty_verify]
  simp [h1]

theorem read_from_tty_verify_single (m : Nat) (msg : Option (List Nat))
    (p1 p2 : CppString) (w : World)
    (h1 : (read_from_tty m p1 (show_message msg w)).ok = true) :
    read_from_tty_verify m false msg p1 p2 w =
      ⟨true, (read_from_tty m p1 (show_message msg w)).pass, p2,
        (read_from_tty m p1 (show_message msg w)).world⟩ := by
  rw [read_from_tty_verify]
  simp [h1]

theorem read_from_tty_verify_fail2 (m : Nat) (msg : Option (List Nat))
    (p1 p2 : CppString) (w : World)
    (h1 : (read_from_tty m p1 (show_message msg w)).ok = true)
    (h2 : (read_from_tty m p2 (cout (bytes "Confirm Password: ")
      (read_from_tty m p1 (show_message msg w)).world)).ok = false) :
    read_from_tty_verify m true msg p1 p2 w =
      ⟨false, (read_from_tty m p1 (show_message msg w)).pass,
        (read_from_tty m p2 (cout (bytes "Confirm Password: ")
          (read_from_tty m p1 (show_message msg w)).world)).pass,
        (read_from_tty m p2 (cout (bytes "Confirm Password: ")
          (read_from_tty m p1 (show_message msg w)).world)).world⟩ := by
  rw [read_from_tty_verify]
  simp [h1, h2]

theorem read_from_tty_verify_retry (m : Nat) (msg : Option (List Nat))
    (p1 p2 : CppString) (w : World)
    (h1 : (read_from_tty m p1 (show_message msg w)).ok = true)
    (h2 : (read_from_tty m p2 (cout (bytes "Confirm Password: ")
      (read_from_tty m p1 (show_message msg w)).world)).ok = true)
    (hne : (read_from_tty m p1 (show_message msg w)).pass.content ≠
      (read_from_tty m p2 (cout (bytes "Confirm Password: ")
        (read_from_tty m p1 (show_message msg w)).world)).pass.content) :
    read_from_tty_verify m true msg p1 p2 w =
      read_from_tty_verify m true msg
        (clear (read_from_tty m p1 (show_message msg w)).pass)
        (clear (read_from_tty m p2 (cout (bytes "Confirm Password: ")
          (read_from_tty m p1 (show_message msg w)).world)).pass)
        (cout (bytes "Passwords do not match! Please try again." ++ [10])
          (read_from_tty m p2 (cout (bytes "Confirm Password: ")
            (read_from_tty m p1 (show_message msg w)).world)).world) := by
  conv_lhs => rw [read_from_tty_verify]
  simp [h1, h2, hne]

theorem read_from_tty_verify_match (m : Nat) (msg : Option (List Nat))
    (p1 p2 : CppString) (w : World)
    (h1 : (read_from_tty m p1 (show_message msg w)).ok = true)
    (h2 : (read_from_tty m p2 (cout (bytes "Confirm Password: ")
      (read_from_tty m p1 (show_message msg w)).world)).ok = true)
    (heq : (read_from_tty m p1 (show_message msg w)).pass.content =
      (read_from_tty m p2 (cout (bytes "Confirm Password: ")
        (read_from_tty m p1 (show_message msg w)).world)).pass.content) :
    read_from_tty_verify m true msg p1 p2 w =
      ⟨true, (read_from_tty m p1 (show_message msg w)).pass,
        (read_from_tty m p2 (cout (bytes "Confirm Password: ")
          (read_from_tty m p1 (show_message msg w)).world)).pass,
        (read_from_tty m p2 (cout (bytes "Confirm Password: ")
          (read_from_tty m p1 (show_message msg w)).world)).world⟩ := by
  rw [read_from_tty_verify]
  simp [h1, h2, heq]

theorem show_message_frame (msg : Option (List Nat)) (w : World) :
    (show_message msg w).prompt_calls = w.prompt_calls ∧
      (show_message msg w).tty_mode = w.tty_mode ∧
      (show_message msg w).read_failures = w.read_failures := by
  cases msg <;> exact ⟨rfl, rfl, rfl⟩

theorem framed_true_step {w w1 w2 : World} {ok : Bool}
    (h1 : framed w true w1) (h2 : framed w1 ok w2) : framed w ok w2 :=
  framed_step ⟨h1.1, h1.2.1, by simpa using h1.2.2⟩ h2

theorem framed_cout {w w1 : World} {ok : Bool} (b : List Nat) (h : framed w ok w1) :
    framed w ok (cout b w1) := h

theorem read_from_tty_verify_frame (m : Nat) (v : Bool) (msg : Option (List Nat))
    (p1 p2 : CppString) (w : World) :
    framed w (read_from_tty_verify m v msg p1 p2 w).ok
      (read_from_tty_verify m v msg p1 p2 w).world := by
  induction p1, p2, w using read_from_tty_verify.induct m v msg with
  | case1 p1 p2 w r1 h1 =>
    have h1' : r1.ok = false := by simpa using h1
    rw [read_from_tty_verify_fail1 m v msg p1 p2 w h1']
    have := read_from_tty_frame m p1 (show_message msg w)
    rw [h1'] at this
    exact framed_step (show_message_frame msg w) this
  | case2 p1 p2 w r1 h1 hv r2 h2 =>
    have h1' : r1.ok = true := by simpa using h1
    have h2' : r2.ok = false := by simpa using h2
    subst hv
    rw [read_from_tty_verify_fail2 m msg p1 p2 w h1' h2']
    have f1 := read_from_tty_frame m p1 (show_message msg w)
    have f2 := read_from_tty_frame m p2 (cout (bytes "Confirm Password: ") r1.world)
    rw [h1'] at f1
    rw [h2'] at f2
    exact framed_step (show_message_frame msg w) (framed_true_step f1 f2)
  | case3 p1 p2 w r1 h1 hv r2 h2 hne ih =>
    have h1' : r1.ok = true := by simpa using h1
    have h2' : r2.ok = true := by simpa using h2
    subst hv
    rw [read_from_tty_verify_retry m msg p1 p2 w h1' h2' hne]
    have f1 := read_from_tty_frame m p1 (show_message msg w)
    have f2 := read_from_tty_frame m p2 (cout (bytes "Confirm Password: ") r1.world)
    rw [h1'] at f1
    rw [h2'] at f2
    exact framed_step (show_message_frame msg w)
      (framed_true_step f1 (framed_true_step (framed_cout _ f2) ih))
  | case4 p1 p2 w r1 h1 hv r2 h2 heq =>
    have h1' : r1.ok = true := by simpa using h1
    have h2' : r2.ok = true := by simpa using h2
    subst hv
    rw [read_from_tty_verify_match m msg p1 p2 w h1' h2' (not_not.mp heq)]
    have f1 := read_from_tty_frame m p1 (show_message msg w)
    have f2 := read_from_tty_frame m p2 (cout (bytes "Confirm Password: ") r1.world)
    rw [h1'] at f1
    rw [h2'] at f2
    exact framed_step (show_message_frame msg w) (framed_true_step f1 f2)
  | case5 p1 p2 w r1 h1 hv =>
    have h1' : r1.ok = true := by simpa using h1
    have hv' : v = false := by simpa using hv
    subst hv'
    rw [read_from_tty_verify_single m msg p1 p2 w h1']
    have f1 := read_from_tty_frame m p1 (show_message msg w)
    rw [h1'] at f1
    exact framed_step (show_message_frame msg w) f1

/-- With `verify` set the loop returns `true` only on two equal entries. -/
theorem read_from_tty_verify_ok_equal (m : Nat) (msg : Option (List Nat))
    (p1 p2 : CppString) (w : World)
    (hok : (read_from_tty_verify m true msg p1 p2 w).ok = true) :
    (read_from_tty_verify m true msg p1 p2 w).pass1.content =
      (read_from_tty_verify m true msg p1 p2 w).pass2.content := by
  induction p1, p2, w using read_from_tty_verify.induct m true msg with
  | case1 p1 p2 w r1 h1 =>
    have h1' : r1.ok = false := by simpa using h1
    rw [read_from_tty_verify_fail1 m true msg p1 p2 w h1'] at hok
    simp at hok
  | case2 p1 p2 w r1 h1 hv r2 h2 =>
    have h1' : r1.ok = true := by simpa using h1
    have h2' : r2.ok = false := by simpa using h2
    rw [read_from_tty_verify_fail2 m msg p1 p2 w h1' h2'] at hok
    simp at hok
  | case3 p1 p2 w r1 h1 hv r2 h2 hne ih =>
    have h1' : r1.ok = true := by simpa using h1
    have h2' : r2.ok = true := by simpa using h2
    rw [read_from_tty_verify_retry m msg p1 p2 w h1' h2' hne] at hok ⊢
    exact ih hok
  | case4 p1 p2 w r1 h1 hv r2 h2 heq =>
    have h1' : r1.ok = true := by simpa using h1
    have h2' : r2.ok = true := by simpa using h2
    rw [read_from_tty_verify_match m msg p1 p2 w h1' h2' (not_not.mp heq)]
    exact not_not.mp heq
  | case5 p1 p2 w r1 h1 hv => simp at hv

theorem cin_get_prompt_calls (w : World) : (cin_get w).2.prompt_calls = w.prompt_calls := by
  unfold cin_get
  split_ifs
  · rfl
  · rcases h : w.stdin with _ | ⟨i, rest⟩
    · rfl
    · cases i <;> rfl

theorem read_from_file_loop_prompt_calls (n : Nat) :
    ∀ (s : CppString) (w : World),
      (read_from_file_loop n s w).world.prompt_calls = w.prompt_calls := by
  induction n with
  | zero => intro s w; rfl
  | succ n ih =>
    intro s w
    rw [read_from_file_loop]
    split_ifs
    · exact cin_get_prompt_calls w
    · exact cin_get_prompt_calls w
    · rw [ih]
      exact cin_get_prompt_calls w

/-! ## `prompt` and `parse` -/

theorem prompt_tty (m : Nat) (v : Bool) (msg : Option (List Nat)) (w : World)
    (htty : w.stdin_is_tty = true) :
    password_container.prompt m v msg w =
      if (read_from_tty_verify m v msg CppString.mk0 CppString.mk0
          { w with prompt_calls := w.prompt_calls + 1 }).ok then
        (some ⟨(read_from_tty_verify m v msg CppString.mk0 CppString.mk0
          { w with prompt_calls := w.prompt_calls + 1 }).pass1⟩,
          (read_from_tty_verify m v msg CppString.mk0 CppString.mk0
            { w with prompt_calls := w.prompt_calls + 1 }).world)
      else
        (none, (read_from_tty_verify m v msg CppString.mk0 CppString.mk0
          { w with prompt_calls := w.prompt_calls + 1 }).world) := by
  simp [password_container.prompt, is_cin_tty, htty]

theorem prompt_prompt_calls (m : Nat) (v : Bool) (msg : Option (List Nat)) (w : World) :
    (password_container.prompt m v msg w).2.prompt_calls = w.prompt_calls + 1 := by
  unfold password_container.prompt
  simp only []
  split_ifs
  · exact (read_from_tty_verify_frame m v msg _ _ _).1
  · exact (read_from_tty_verify_frame m v msg _ _ _).1
  · exact read_from_file_loop_prompt_calls m _ _
  · exact read_from_file_loop_prompt_calls m _ _

theorem indexOf_split (a : Nat) :
    ∀ l : List Nat, a ∈ l →
      l = l.take (l.indexOf a) ++ a :: l.drop (l.indexOf a + 1) ∧ a ∉ l.take (l.indexOf a) := by
  intro l
  induction l with
  | nil => intro h; simp at h
  | cons x xs ih =>
    intro h
    by_cases hx : x = a
    · subst hx
      simp
    · have hmem : a ∈ xs := by
        rcases List.mem_cons.mp h with h | h
        · exact absurd h.symm hx
        · exact h
      obtain ⟨e1, e2⟩ := ih hmem
      have hi : (x :: xs).indexOf a = xs.indexOf a + 1 := by
        rw [List.indexOf_cons_ne _ hx]
      rw [hi]
      refine ⟨?_, ?_⟩
      · simp only [List.take_succ_cons, List.drop_succ_cons, List.cons_append]
        rw [← e1]
      · simp only [List.take_succ_cons, List.mem_cons, not_or]
        exact ⟨fun h => hx h.symm, e2⟩

theorem find_some (c : Nat) (s : CppString) (h : c ∈ s.content) :
    s.find c = some (s.content.indexOf c) := by
  unfold CppString.find CppString.size
  rw [if_pos (List.indexOf_lt_length.mpr h)]

theorem find_none (c : Nat) (s : CppString) (h : c ∉ s.content) : s.find c = none := by
  unfold CppString.find CppString.size
  rw [if_neg]
  rw [List.indexOf_lt_length]
  exact h

/-- An entry on an empty buffer whose first keystroke is a terminator
succeeds with the buffer still empty, whatever the maximum. -/
theorem read_from_tty_terminated_at_once (m : Nat) (p : CppString) (w : World) (t : Nat)
    (rest : List Input) (hp : p.size = 0) (hin : w.stdin = Input.byte t :: rest)
    (ht : t % 256 = 10 ∨ t % 256 = 13) :
    (read_from_tty m p w).ok = true ∧ (read_from_tty m p w).pass.content = [] ∧
      ((0 < m ∧ (read_from_tty m p w).world = w.after rest [10]) ∨
        (m = 0 ∧ (read_from_tty m p w).world = w)) := by
  have hc : p.content = [] := List.length_eq_zero.mp hp
  unfold read_from_tty
  rcases Nat.eq_zero_or_pos m with h0 | hpos
  · rw [read_from_tty_loop_full m _ w (by rw [reserve_size]; omega)]
    exact ⟨rfl, by simp [reserve_content, hc], Or.inr ⟨h0, rfl⟩⟩
  · rw [read_from_tty_loop_terminator m _ w t rest (by rw [reserve_size]; omega) hin ht]
    exact ⟨rfl, by simp [reserve_content, hc], Or.inl ⟨hpos, rfl⟩⟩

/-! ## The display of an entry -/

theorem displayOf_mem (m : Nat) (cs : List KeyClass) :
    ∀ n, ∀ b ∈ displayOf m n cs, b = 42 ∨ b = 8 ∨ b = 32 ∨ b = 10 := by
  induction cs with
  | nil => intro n b hb; simp [displayOf] at hb
  | cons c cs ih =>
    intro n b hb
    by_cases h1 : n < m
    · cases c with
      | failure => simp [displayOf, h1] at hb
      | terminator =>
        simp [displayOf, h1] at hb
        simp [hb]
      | backspace =>
        by_cases hz : n = 0
        · subst hz
          simp only [displayOf, if_pos h1, if_true] at hb
          exact ih _ b hb
        · simp only [displayOf, if_pos h1, if_neg hz] at hb
          rcases List.mem_append.mp hb with h | h
          · simp at h
            rcases h with h | h | h <;> simp [h]
          · exact ih _ b h
      | other =>
        simp only [displayOf, if_pos h1] at hb
        rcases List.mem_append.mp hb with h | h
        · simp at h
          simp [h]
        · exact ih _ b h
    · simp [displayOf, h1] at hb

theorem type_key_size_backspace (s : CppString) :
    (type_key s 127).size = s.size - 1 := by
  unfold CppString.size
  rw [type_key_content]
  simp [applyKey]

theorem type_key_size_other (s : CppString) (k : Nat) (hk : k ≠ 127) :
    (type_key s k).size = s.size + 1 := by
  unfold CppString.size
  rw [type_key_content]
  simp [applyKey, hk]

/-- The display the loop produces is `displayOf` of the classes it reads. -/
theorem read_from_tty_loop_display (m : Nat) (ks : List Input) :
    ∀ (p : CppString) (w : World), w.stdin = ks →
      (read_from_tty_loop m p w).world.stdout =
        w.stdout ++ displayOf m p.size (ks.map keyClass) := by
  induction ks with
  | nil =>
    intro p w hin
    by_cases hp : p.size < m
    · rw [read_from_tty_loop_nil m p w hp hin]
      simp [displayOf, World.failed]
    · rw [read_from_tty_loop_full m p w hp]
      simp [displayOf]
  | cons i ks ih =>
    intro p w hin
    by_cases hp : p.size < m
    · cases i with
      | byte b =>
        by_cases hb : b % 256 = 10 ∨ b % 256 = 13
        · rw [read_from_tty_loop_terminator m p w b ks hp hin hb]
          simp [displayOf, keyClass, hp, hb, World.after]
        · have hb' : b % 256 ≠ 10 ∧ b % 256 ≠ 13 := not_or.mp hb
          rw [read_from_tty_loop_key m p w b ks hp hin hb', ih _ _ rfl]
          by_cases hk : b % 256 = 127
          · rw [hk, type_key_size_backspace]
            by_cases hz : p.size = 0
            · have hm : 0 < m := by omega
              simp [displayOf, keyClass, hb, hk, World.after, echoKey, hz, hm]
            · simp [displayOf, keyClass, hp, hb, hk, World.after, echoKey, hz]
          · rw [type_key_size_other _ _ hk]
            simp [displayOf, keyClass, hp, hb, hk, World.after, echoKey]
      | eof =>
        rw [read_from_tty_loop_eof m p w ks hp hin]
        simp [displayOf, keyClass, hp, World.failed]
      | error =>
        rw [read_from_tty_loop_error m p w ks hp hin]
        simp [displayOf, keyClass, hp, World.failed]
    · rw [read_from_tty_loop_full m p w hp]
      simp [displayOf, hp]

/-! ## The display of an entry, Windows build -/

theorem ReadConsoleA_byte (w : World) (b : Nat) (rest : List Input)
    (h : w.stdin = Input.byte b :: rest) :
    ReadConsoleA w = ((true, b % 256), w.after rest []) := by
  unfold ReadConsoleA World.after
  simp [h]

theorem ReadConsoleA_fails (w : World) (h : ∀ b rest, w.stdin ≠ Input.byte b :: rest) :
    (ReadConsoleA w).1.1 = false ∧ (ReadConsoleA w).2.stdout = w.stdout := by
  unfold ReadConsoleA
  rcases hin : w.stdin with _ | ⟨i, rest⟩
  · exact ⟨rfl, rfl⟩
  · cases i with
    | byte b => exact absurd hin (h b rest)
    | eof => exact ⟨rfl, rfl⟩
    | error => exact ⟨rfl, rfl⟩

theorem read_from_tty_win32_loop_full (m : Nat) (p : CppString) (w : World)
    (hp : ¬ p.size < m) : read_from_tty_win32_loop m p w = ⟨true, p, w⟩ := by
  rw [read_from_tty_win32_loop, if_neg hp]

theorem read_from_tty_win32_loop_fails (m : Nat) (p : CppString) (w : World)
    (hp : p.size < m) (h : ∀ b rest, w.stdin ≠ Input.byte b :: rest) :
    read_from_tty_win32_loop m p w = ⟨false, p, (ReadConsoleA w).2⟩ := by
  have hf : ¬ (ReadConsoleA w).1.1 = true := by simp [(ReadConsoleA_fails w h).1]
  rw [read_from_tty_win32_loop, if_pos hp, dif_neg hf]

theorem read_from_tty_win32_loop_terminator (m : Nat) (p : CppString) (w : World) (b : Nat)
    (rest : List Input) (hp : p.size < m) (h : w.stdin = Input.byte b :: rest)
    (hb : b % 256 = 10 ∨ b % 256 = 13) :
    read_from_tty_win32_loop m p w = ⟨true, p, w.after rest [10]⟩ := by
  rw [read_from_tty_win32_loop, if_pos hp, ReadConsoleA_byte w b rest h]
  simp only [dite_true, if_pos hb, cout_after, List.nil_append]

theorem read_from_tty_win32_loop_backspace (m : Nat) (p : CppString) (w : World) (b : Nat)
    (rest : List Input) (hp : p.size < m) (h : w.stdin = Input.byte b :: rest)
    (hb : b % 256 = 8) :
    read_from_tty_win32_loop m p w =
      read_from_tty_win32_loop m (type_key p 127) (w.after rest (echoKey p.size 127)) := by
  conv_lhs => rw [read_from_tty_win32_loop, if_pos hp, ReadConsoleA_byte w b rest h]
  have h2 : ¬ (b % 256 = 10 ∨ b % 256 = 13) := by omega
  simp only [dite_true, if_neg h2, BACKSPACE_WIN32, if_pos hb, cout_after, List.nil_append]
  by_cases he : p.empty = true
  · have hz : p.size = 0 := by simpa [CppString.empty, CppString.size] using he
    simp [type_key, echoKey, he, hz]
  · have hz : p.size ≠ 0 := by simpa [CppString.empty, CppString.size] using he
    simp [type_key, echoKey, he, hz]

theorem read_from_tty_win32_loop_other (m : Nat) (p : CppString) (w : World) (b : Nat)
    (rest : List Input) (hp : p.size < m) (h : w.stdin = Input.byte b :: rest)
    (hb : b % 256 ≠ 10 ∧ b % 256 ≠ 13 ∧ b % 256 ≠ 8) :
    read_from_tty_win32_loop m p w =
      read_from_tty_win32_loop m (p.push_back (b % 256)) (w.after rest [42]) := by
  conv_lhs => rw [read_from_tty_win32_loop, if_pos hp, ReadConsoleA_byte w b rest h]
  have h2 : ¬ (b % 256 = 10 ∨ b % 256 = 13) := by omega
  simp only [dite_true, if_neg h2, BACKSPACE_WIN32, if_neg hb.2.2, cout_after, List.nil_append]

theorem push_back_size (s : CppString) (c : Nat) : (s.push_back c).size = s.size + 1 := by
  unfold CppString.size
  rw [push_back_content]
  simp

/-- The display the Windows loop produces is `displayOf` of the classes it
reads. -/
theorem read_from_tty_win32_loop_display (m : Nat) (ks : List Input) :
    ∀ (p : CppString) (w : World), w.stdin = ks →
      (read_from_tty_win32_loop m p w).world.stdout =
        w.stdout ++ displayOf m p.size (ks.map keyClass_win32) := by
  induction ks with
  | nil =>
    intro p w hin
    by_cases hp : p.size < m
    · rw [read_from_tty_win32_loop_fails m p w hp (by simp [hin])]
      simp [displayOf, (ReadConsoleA_fails w (by simp [hin])).2]
    · rw [read_from_tty_win32_loop_full m p w hp]
      simp [displayOf]
  | cons i ks ih =>
    intro p w hin
    by_cases hp : p.size < m
    · cases i with
      | byte b =>
        by_cases hb : b % 256 = 10 ∨ b % 256 = 13
        · rw [read_from_tty_win32_loop_terminator m p w b ks hp hin hb]
          simp [displayOf, keyClass_win32, hp, hb, World.after]
        · by_cases hk : b % 256 = 8
          · rw [read_from_tty_win32_loop_backspace m p w b ks hp hin hk, ih _ _ rfl,
              type_key_size_backspace]
            by_cases hz : p.size = 0
            · have hm : 0 < m := by omega
              simp [displayOf, keyClass_win32, hb, hk, World.after, echoKey, hz, hm]
            · simp [displayOf, keyClass_win32, hp, hb, hk, World.after, echoKey, hz]
          · rw [read_from_tty_win32_loop_other m p w b ks hp hin
              ⟨(not_or.mp hb).1, (not_or.mp hb).2, hk⟩, ih _ _ rfl, push_back_size]
            simp [displayOf, keyClass_win32, hp, hb, hk, World.after]
      | eof =>
        rw [read_from_tty_win32_loop_fails m p w hp (by simp [hin])]
        simp [displayOf, keyClass_win32, hp, (ReadConsoleA_fails w (by simp [hin])).2]
      | error =>
        rw [read_from_tty_win32_loop_fails m p w hp (by simp [hin])]
        simp [displayOf, keyClass_win32, hp, (ReadConsoleA_fails w (by simp [hin])).2]
    · rw [read_from_tty_win32_loop_full m p w hp]
      simp [displayOf, hp]

theorem read_from_tty_win32_display (m : Nat) (p : CppString) (w : World) :
    (read_from_tty_win32 m p w).world.stdout =
      w.stdout ++ displayOf m p.size (w.stdin.map keyClass_win32) := by
  have h := read_from_tty_win32_loop_display m w.stdin (p.reserve w.fresh m)
    { w with tty_mode := clearBits w.tty_mode (ENABLE_ECHO_INPUT ||| ENABLE_LINE_INPUT) } rfl
  rw [reserve_size] at h
  exact h

/-! ## Rounds of entry and confirmation -/

theorem show_message_after (message : Option (List Nat)) (w : World) :
    show_message message w = w.after w.stdin (prompt_bytes message) := by
  cases message with
  | none => simp [show_message, prompt_bytes, after_self]
  | some m => simp [show_message, prompt_bytes, cout, World.after]

theorem reserve_slack_clean (f n : Nat) (s : CppString) (h : slack_clean f s) :
    slack_clean f (s.reserve f n) := by
  unfold CppString.reserve
  split_ifs
  · exact h
  · intro b hb
    exact Or.inr (List.eq_of_mem_replicate hb)

theorem set_last_zero : ∀ l : List Nat, l ≠ [] → l.set (l.length - 1) 0 = l.dropLast ++ [0] := by
  intro l
  induction l with
  | nil => intro h; exact absurd rfl h
  | cons x xs ih =>
    intro _
    cases xs with
    | nil => rfl
    | cons y ys =>
      have := ih (by simp)
      simp only [List.length_cons, Nat.add_sub_cancel] at this ⊢
      simp only [List.set_cons_succ, List.dropLast_cons₂, List.cons_append]
      rw [this]

theorem type_key_slack_clean (f : Nat) (s : CppString) (k : Nat) (h : slack_clean f s) :
    slack_clean f (type_key s k) := by
  unfold type_key
  by_cases hk : k = 127
  · simp only [hk, if_true]
    by_cases he : s.empty = true
    · simpa [he] using h
    · have hne : s.content ≠ [] := by simpa [CppString.empty] using he
      have hle : s.size - 1 ≤ (s.set_back 0).size := by
        simp [CppString.size, CppString.set_back]
      simp only [he, CppString.resize, if_pos hle]
      intro b hb
      simp only [CppString.set_back, CppString.size, Bool.false_eq_true, if_false] at hb
      rw [set_last_zero _ hne] at hb
      have hd : (s.content.dropLast ++ [0]).drop (s.content.length - 1) = [0] := by
        rw [List.drop_append_of_le_length (by simp)]
        simp
      rw [hd] at hb
      rcases List.mem_append.mp hb with hb | hb
      · exact Or.inl (by simpa using hb)
      · exact h b hb
  · simp only [hk, if_false]
    unfold CppString.push_back
    intro b hb
    split at hb
    · simp at hb
    · rename_i x sl hs
      exact h b (by rw [hs]; exact List.mem_cons_of_mem _ hb)

theorem type_keys_slack_clean (f : Nat) (ks : List Nat) :
    ∀ s : CppString, slack_clean f s → slack_clean f (type_keys s ks) := by
  induction ks with
  | nil => intro s h; exact h
  | cons k ks ih => intro s h; exact ih _ (type_key_slack_clean f s k h)

theorem clear_slack_clean (f : Nat) (s : CppString) : slack_clean f (clear s) := by
  intro b hb
  have : (clear s).slack = List.replicate s.capacity 0 := by
    simp [clear, CppString.replace, CppString.clear, CppString.capacity, CppString.storage,
      CppString.size]
  rw [this] at hb
  exact Or.inl (List.eq_of_mem_replicate hb)

theorem type_keys_size_le (ks : List Nat) (s : CppString) :
    (type_keys s ks).size ≤ s.size + ks.length := by
  unfold CppString.size
  rw [type_keys_content]
  exact applyKeys_length_le ks _

/-- One entry of plain keystrokes shorter than the maximum, ended by a
terminator and typed into an empty buffer. -/
theorem read_from_tty_entry (m : Nat) (e : List Nat) (t : Nat) (rest : List Input)
    (p : CppString) (w : World) (hp : p.size = 0) (he : ∀ k ∈ e, plain k)
    (hlen : e.length < m) (ht : t = 10 ∨ t = 13)
    (hin : w.stdin = e.map Input.byte ++ Input.byte t :: rest) :
    read_from_tty m p w =
      ⟨true, type_keys (p.reserve w.fresh m) e, w.after rest (echoKeys [] e ++ [10])⟩ := by
  have hc : p.content = [] := List.length_eq_zero.mp hp
  unfold read_from_tty
  rw [read_from_tty_loop_keys m (Input.byte t :: rest) e _ w he
    (by rw [reserve_size]; omega) hin,
    read_from_tty_loop_terminator m _ _ t rest
      (by have := type_keys_size_le e (p.reserve w.fresh m); rw [reserve_size] at this; omega)
      rfl (by rcases ht with h | h <;> simp [h]),
    after_after, reserve_content, hc]

/-- The two reads of one round. -/
theorem round_reads (m : Nat) (msg : Option (List Nat)) (a : Attempt) (rest : List Input)
    (p1 p2 : CppString) (w : World) (h1 : p1.size = 0) (h2 : p2.size = 0) (ha : a.ok m)
    (hin : w.stdin = a.keys ++ rest) :
    read_from_tty m p1 (show_message msg w) =
        ⟨true, type_keys (p1.reserve w.fresh m) a.first,
          w.after (a.second.map Input.byte ++ Input.byte a.second_end :: rest)
            (prompt_bytes msg ++ (echoKeys [] a.first ++ [10]))⟩ ∧
      read_from_tty m p2 (cout (bytes "Confirm Password: ")
          (w.after (a.second.map Input.byte ++ Input.byte a.second_end :: rest)
            (prompt_bytes msg ++ (echoKeys [] a.first ++ [10])))) =
        ⟨true, type_keys (p2.reserve w.fresh m) a.second, w.after rest (a.display msg)⟩ := by
  obtain ⟨f1, f2, f3, s1, s2, s3⟩ := ha
  constructor
  · rw [show_message_after,
      read_from_tty_entry m a.first a.first_end
        (a.second.map Input.byte ++ Input.byte a.second_end :: rest) p1 _ h1 f1 f2 f3
        (by simp [World.after, hin, Attempt.keys]),
      after_after]
    rfl
  · rw [cout_after,
      read_from_tty_entry m a.second a.second_end rest p2 _ h2 s1 s2 s3 rfl, after_after]
    simp [World.after, Attempt.display]

/-- The loop on rounds that mismatch followed by a round that matches. -/
theorem read_from_tty_verify_rounds (m : Nat) (msg : Option (List Nat)) (last : Attempt)
    (rest : List Input) (hlast : last.ok m)
    (hsame : applyKeys [] last.first = applyKeys [] last.second) (failed : List Attempt) :
    ∀ (p1 p2 : CppString) (w : World), p1.size = 0 → p2.size = 0 → slack_clean w.fresh p1 →
      (∀ a ∈ failed, a.ok m ∧ applyKeys [] a.first ≠ applyKeys [] a.second) →
      w.stdin = all_keys failed ++ (last.keys ++ rest) →
      (read_from_tty_verify m true msg p1 p2 w).ok = true ∧
        (read_from_tty_verify m true msg p1 p2 w).pass1.content = applyKeys [] last.first ∧
        slack_clean w.fresh (read_from_tty_verify m true msg p1 p2 w).pass1 ∧
        (read_from_tty_verify m true msg p1 p2 w).world =
          w.after rest (retry_display msg failed ++ last.display msg) := by
  induction failed with
  | nil =>
    intro p1 p2 w h1 h2 hclean _ hin
    have c1 : p1.content = [] := List.length_eq_zero.mp h1
    have c2 : p2.content = [] := List.length_eq_zero.mp h2
    obtain ⟨e1, e2⟩ := round_reads m msg last rest p1 p2 w h1 h2 hlast (by simpa [all_keys] using hin)
    rw [read_from_tty_verify_match m msg p1 p2 w (by simp only [e1]) (by simp only [e1, e2])
      (by simp only [e1, e2, type_keys_content, reserve_content, c1, c2, hsame])]
    simp only [e1, e2]
    refine ⟨trivial, ?_, ?_, ?_⟩
    · rw [type_keys_content, reserve_content, c1]
    · exact type_keys_slack_clean _ _ _ (reserve_slack_clean _ _ _ hclean)
    · simp [retry_display]
  | cons a failed ih =>
    intro p1 p2 w h1 h2 hclean hfailed hin
    have c1 : p1.content = [] := List.length_eq_zero.mp h1
    have c2 : p2.content = [] := List.length_eq_zero.mp h2
    obtain ⟨ha, hdiff⟩ := hfailed a (List.mem_cons_self _ _)
    obtain ⟨e1, e2⟩ := round_reads m msg a (all_keys failed ++ (last.keys ++ rest)) p1 p2 w h1 h2
      ha (by simpa [all_keys] using hin)
    rw [read_from_tty_verify_retry m msg p1 p2 w (by simp only [e1]) (by simp only [e1, e2])
      (by simp only [e1, e2, type_keys_content, reserve_content, c1, c2]; exact hdiff)]
    simp only [e1, e2]
    rw [cout_after]
    obtain ⟨r1, r2, r3, r4⟩ := ih (clear (type_keys (p1.reserve w.fresh m) a.first))
      (clear (type_keys (p2.reserve w.fresh m) a.second))
      (w.after (all_keys failed ++ (last.keys ++ rest))
        (a.display msg ++ (bytes "Passwords do not match! Please try again." ++ [10])))
      (clear_size _) (clear_size _) (clear_slack_clean _ _)
      (fun x hx => hfailed x (List.mem_cons_of_mem _ hx)) rfl
    refine ⟨r1, r2, r3, ?_⟩
    rw [r4, after_after]
    simp [retry_display]

/-! ## Entries that reach the maximum -/

theorem applyKeys_no_backspace (ks : List Nat) :
    ∀ buf : List Nat, (∀ k ∈ ks, k ≠ 127) → applyKeys buf ks = buf ++ ks := by
  induction ks with
  | nil => intro buf _; simp [applyKeys]
  | cons k ks ih =>
    intro buf h
    have hk : k ≠ 127 := h k (List.mem_cons_self _ _)
    show applyKeys (applyKey buf k) ks = _
    rw [ih _ (fun x hx => h x (List.mem_cons_of_mem _ hx))]
    simp [applyKey, hk]

/-- An entry of exactly `m` plain bytes without backspace typed into an empty
buffer: the POSIX reader returns as soon as the buffer is full and reads
nothing of what follows. -/
theorem read_from_tty_exactly_max (m : Nat) (ks : List Nat) (tail : List Input)
    (p : CppString) (w : World) (hp : p.size = 0) (hlen : ks.length = m)
    (hks : ∀ k ∈ ks, plain k ∧ k ≠ 127) (hin : w.stdin = ks.map Input.byte ++ tail) :
    read_from_tty m p w =
      ⟨true, type_keys (p.reserve w.fresh m) ks, w.after tail (echoKeys [] ks)⟩ ∧
      (type_keys (p.reserve w.fresh m) ks).content = ks := by
  have hc : p.content = [] := List.length_eq_zero.mp hp
  have hcont : (type_keys (p.reserve w.fresh m) ks).content = ks := by
    rw [type_keys_content, reserve_content, hc,
      applyKeys_no_backspace ks [] (fun k hk => (hks k hk).2)]
    rfl
  refine ⟨?_, hcont⟩
  unfold read_from_tty
  rw [read_from_tty_loop_keys m tail ks _ w (fun k hk => (hks k hk).1)
    (by rw [reserve_size]; omega) hin,
    read_from_tty_loop_full m _ _ (by
      unfold CppString.size
      rw [hcont]
      omega),
    reserve_content, hc]

/-- A run of plain bytes without the Windows backspace code that fits below
the maximum is consumed whole by the Windows loop. -/
theorem read_from_tty_win32_loop_keys (m : Nat) (tail : List Input) (ks : List Nat) :
    ∀ (s : CppString) (w : World), (∀ k ∈ ks, plain k ∧ k ≠ 8) → s.size + ks.length ≤ m →
      w.stdin = ks.map Input.byte ++ tail →
      read_from_tty_win32_loop m s w =
        read_from_tty_win32_loop m (push_all s ks)
          (w.after tail (List.replicate ks.length 42)) := by
  induction ks with
  | nil =>
    intro s w _ _ hin
    simp only [List.map_nil, List.nil_append] at hin
    simp [push_all, ← hin, after_self]
  | cons k ks ih =>
    intro s w hk hlen hin
    obtain ⟨hpk, hk8⟩ := hk k (List.mem_cons_self _ _)
    have hmod := plain_mod hpk
    simp only [List.length_cons] at hlen
    have step := read_from_tty_win32_loop_other m s w k (ks.map Input.byte ++ tail) (by omega)
      (by simpa using hin) (by rw [hmod]; exact ⟨hpk.2.1, hpk.2.2, hk8⟩)
    rw [hmod] at step
    rw [step, ih (s.push_back k) _ (fun x hx => hk x (List.mem_cons_of_mem _ hx))
      (by rw [push_back_size]; omega) rfl, after_after]
    simp [push_all, List.replicate_succ]

/-- An entry of exactly `m` plain bytes without backspace typed into an empty
buffer, Windows reader. -/
theorem read_from_tty_win32_exactly_max (m : Nat) (ks : List Nat) (tail : List Input)
    (p : CppString) (w : World) (hp : p.size = 0) (hlen : ks.length = m)
    (hks : ∀ k ∈ ks, plain k ∧ k ≠ 8) (hin : w.stdin = ks.map Input.byte ++ tail) :
    (read_from_tty_win32 m p w).ok = true ∧ (read_from_tty_win32 m p w).pass.content = ks ∧
      (read_from_tty_win32 m p w).world.stdin = tail := by
  have hc : p.content = [] := List.length_eq_zero.mp hp
  have hcont : (push_all (p.reserve w.fresh m) ks).content = ks := by
    rw [push_all_content, reserve_content, hc]
    rfl
  have e := read_from_tty_win32_loop_keys m tail ks (p.reserve w.fresh m)
    { w with tty_mode := clearBits w.tty_mode (ENABLE_ECHO_INPUT ||| ENABLE_LINE_INPUT) } hks
    (by rw [reserve_size]; omega) hin
  have hfull := read_from_tty_win32_loop_full m (push_all (p.reserve w.fresh m) ks)
    (World.after
      { w with tty_mode := clearBits w.tty_mode (ENABLE_ECHO_INPUT ||| ENABLE_LINE_INPUT) }
      tail (List.replicate ks.length 42))
    (by
      unfold CppString.size
      rw [hcont]
      omega)
  rw [hfull] at e
  unfold read_from_tty_win32
  simp only [e]
  exact ⟨trivial, hcont, rfl⟩

/-! ## What every run of a reader keeps -/

/-- A property of the buffer that the erase of the last byte and the append of
a byte below the maximum keep is kept by the whole POSIX loop. -/
theorem read_from_tty_loop_invariant (m : Nat) (I : CppString → Prop)
    (hpop : ∀ s : CppString, I s → ¬ s.empty = true → I ((s.set_back 0).resize (s.size - 1)))
    (hpush : ∀ (s : CppString) (c : Nat), I s → s.size < m → I (s.push_back c))
    (p : CppString) (w : World) (h : I p) : I (read_from_tty_loop m p w).pass := by
  induction p, w using read_from_tty_loop.induct m with
  | case1 p w hp hE =>
    have e : read_from_tty_loop m p w = ⟨false, p, (getch w).2⟩ := by
      rw [read_from_tty_loop, if_pos hp, dif_pos hE]
    rw [e]
    exact h
  | case2 p w hp hE ht =>
    have e : read_from_tty_loop m p w = ⟨true, p, cout [10] (getch w).2⟩ := by
      rw [read_from_tty_loop, if_pos hp, dif_neg hE, if_pos ht]
    rw [e]
    exact h
  | case3 p w hp hE ht hb he ih =>
    have e : read_from_tty_loop m p w = read_from_tty_loop m
        ((p.set_back 0).resize (p.size - 1)) (cout [8, 32, 8] (getch w).2) := by
      conv_lhs => rw [read_from_tty_loop, if_pos hp, dif_neg hE, if_neg ht, if_pos hb, if_pos he]
    rw [e]
    exact ih (hpop p h he)
  | case4 p w hp hE ht hb he ih =>
    have e : read_from_tty_loop m p w = read_from_tty_loop m p (getch w).2 := by
      conv_lhs => rw [read_from_tty_loop, if_pos hp, dif_neg hE, if_neg ht, if_pos hb, if_neg he]
    rw [e]
    exact ih h
  | case5 p w hp hE ht hb ih =>
    have e : read_from_tty_loop m p w = read_from_tty_loop m
        (p.push_back (toChar (getch w).1)) (cout [42] (getch w).2) := by
      conv_lhs => rw [read_from_tty_loop, if_pos hp, dif_neg hE, if_neg ht, if_neg hb]
    rw [e]
    exact ih (hpush p _ h hp)
  | case6 p w hp =>
    rw [read_from_tty_loop_full m p w hp]
    exact h

/-- The same for the Windows loop. -/
theorem read_from_tty_win32_loop_invariant (m : Nat) (I : CppString → Prop)
    (hpop : ∀ s : CppString, I s → ¬ s.empty = true → I ((s.set_back 0).resize (s.size - 1)))
    (hpush : ∀ (s : CppString) (c : Nat), I s → s.size < m → I (s.push_back c))
    (p : CppString) (w : World) (h : I p) : I (read_from_tty_win32_loop m p w).pass := by
  induction p, w using read_from_tty_win32_loop.induct m with
  | case1 p w hp hR ht =>
    have e : read_from_tty_win32_loop m p w = ⟨true, p, cout [10] (ReadConsoleA w).2⟩ := by
      rw [read_from_tty_win32_loop, if_pos hp, dif_pos hR, if_pos ht]
    rw [e]
    exact h
  | case2 p w hp hR ht hb he ih =>
    have e : read_from_tty_win32_loop m p w = read_from_tty_win32_loop m
        ((p.set_back 0).resize (p.size - 1)) (cout [8, 32, 8] (ReadConsoleA w).2) := by
      conv_lhs =>
        rw [read_from_tty_win32_loop, if_pos hp, dif_pos hR, if_neg ht, if_pos hb, if_pos he]
    rw [e]
    exact ih (hpop p h he)
  | case3 p w hp hR ht hb he ih =>
    have e : read_from_tty_win32_loop m p w =
        read_from_tty_win32_loop m p (ReadConsoleA w).2 := by
      conv_lhs =>
        rw [read_from_tty_win32_loop, if_pos hp, dif_pos hR, if_neg ht, if_pos hb, if_neg he]
    rw [e]
    exact ih h
  | case4 p w hp hR ht hb ih =>
    have e : read_from_tty_win32_loop m p w = read_from_tty_win32_loop m
        (p.push_back (ReadConsoleA w).1.2) (cout [42] (ReadConsoleA w).2) := by
      conv_lhs => rw [read_from_tty_win32_loop, if_pos hp, dif_pos hR, if_neg ht, if_neg hb]
    rw [e]
    exact ih (hpush p _ h hp)
  | case5 p w hp hR =>
    have e : read_from_tty_win32_loop m p w = ⟨false, p, (ReadConsoleA w).2⟩ := by
      rw [read_from_tty_win32_loop, if_pos hp, dif_neg hR]
    rw [e]
    exact h
  | case6 p w hp =>
    rw [read_from_tty_win32_loop_full m p w hp]
    exact h

theorem pop_eq_type_key (s : CppString) (he : ¬ s.empty = true) :
    (s.set_back 0).resize (s.size - 1) = type_key s 127 := by
  simp [type_key, he]

theorem pop_size_le (s : CppString) (he : ¬ s.empty = true) :
    ((s.set_back 0).resize (s.size - 1)).size ≤ s.size := by
  rw [pop_eq_type_key s he, type_key_size_backspace]
  omega

theorem read_from_tty_loop_size_le (m : Nat) (p : CppString) (w : World) (h : p.size ≤ m) :
    (read_from_tty_loop m p w).pass.size ≤ m :=
  read_from_tty_loop_invariant m (fun s => s.size ≤ m)
    (fun s hs he => le_trans (pop_size_le s he) hs)
    (fun s c _ hlt => by show (s.push_back c).size ≤ m; rw [push_back_size]; omega) p w h

theorem read_from_tty_win32_loop_size_le (m : Nat) (p : CppString) (w : World)
    (h : p.size ≤ m) : (read_from_tty_win32_loop m p w).pass.size ≤ m :=
  read_from_tty_win32_loop_invariant m (fun s => s.size ≤ m)
    (fun s hs he => le_trans (pop_size_le s he) hs)
    (fun s c _ hlt => by show (s.push_back c).size ≤ m; rw [push_back_size]; omega) p w h

theorem read_from_tty_size_le (m : Nat) (p : CppString) (w : World) (h : p.size ≤ m) :
    (read_from_tty m p w).pass.size ≤ m :=
  read_from_tty_loop_size_le m _ w (by rw [reserve_size]; exact h)

theorem read_from_file_loop_size_le (n : Nat) :
    ∀ (s : CppString) (w : World), (read_from_file_loop n s w).pass.size ≤ s.size + n := by
  induction n with
  | zero => intro s w; simp [read_from_file_loop]
  | succ n ih =>
    intro s w
    rw [read_from_file_loop]
    split_ifs
    · simp
    · simp
    · have := ih (s.push_back (toChar (cin_get w).1)) (cin_get w).2
      rw [push_back_size] at this
      omega

theorem read_from_tty_verify_size_le (m : Nat) (v : Bool) (msg : Option (List Nat))
    (p1 p2 : CppString) (w : World) (h : p1.size ≤ m) :
    (read_from_tty_verify m v msg p1 p2 w).pass1.size ≤ m := by
  induction p1, p2, w using read_from_tty_verify.induct m v msg with
  | case1 p1 p2 w r1 h1 =>
    have h1' : r1.ok = false := by simpa using h1
    rw [read_from_tty_verify_fail1 m v msg p1 p2 w h1']
    exact read_from_tty_size_le m p1 _ h
  | case2 p1 p2 w r1 h1 hv r2 h2 =>
    have h1' : r1.ok = true := by simpa using h1
    have h2' : r2.ok = false := by simpa using h2
    subst hv
    rw [read_from_tty_verify_fail2 m msg p1 p2 w h1' h2']
    exact read_from_tty_size_le m p1 _ h
  | case3 p1 p2 w r1 h1 hv r2 h2 hne ih =>
    have h1' : r1.ok = true := by simpa using h1
    have h2' : r2.ok = true := by simpa using h2
    subst hv
    rw [read_from_tty_verify_retry m msg p1 p2 w h1' h2' hne]
    exact ih (by rw [clear_size]; omega)
  | case4 p1 p2 w r1 h1 hv r2 h2 heq =>
    have h1' : r1.ok = true := by simpa using h1
    have h2' : r2.ok = true := by simpa using h2
    subst hv
    rw [read_from_tty_verify_match m msg p1 p2 w h1' h2' (not_not.mp heq)]
    exact read_from_tty_size_le m p1 _ h
  | case5 p1 p2 w r1 h1 hv =>
    have h1' : r1.ok = true := by simpa using h1
    have hv' : v = false := by simpa using hv
    subst hv'
    rw [read_from_tty_verify_single m msg p1 p2 w h1']
    exact read_from_tty_size_le m p1 _ h

theorem prompt_file (m : Nat) (v : Bool) (msg : Option (List Nat)) (w : World)
    (hfile : w.stdin_is_tty = false) :
    password_container.prompt m v msg w =
      if (read_from_file m CppString.mk0 { w with prompt_calls := w.prompt_calls + 1 }).ok then
        (some ⟨(read_from_file m CppString.mk0
          { w with prompt_calls := w.prompt_calls + 1 }).pass⟩,
          (read_from_file m CppString.mk0 { w with prompt_calls := w.prompt_calls + 1 }).world)
      else
        (none,
          (read_from_file m CppString.mk0 { w with prompt_calls := w.prompt_calls + 1 }).world) := by
  simp [password_container.prompt, is_cin_tty, hfile]

theorem prompt_size_le (m : Nat) (v : Bool) (msg : Option (List Nat)) (w : World)
    (q : password_container) (h : (password_container.prompt m v msg w).1 = some q) :
    q.m_password.size ≤ m := by
  by_cases ht : w.stdin_is_tty = true
  · rw [prompt_tty m v msg w ht] at h
    by_cases hok : (read_from_tty_verify m v msg CppString.mk0 CppString.mk0
        { w with prompt_calls := w.prompt_calls + 1 }).ok = true
    · rw [if_pos hok] at h
      simp only [Option.some.injEq] at h
      rw [← h]
      exact read_from_tty_verify_size_le m v msg _ _ _ (by simp [CppString.mk0, CppString.size])
    · rw [if_neg hok] at h
      simp at h
  · have hf : w.stdin_is_tty = false := by simpa using ht
    rw [prompt_file m v msg w hf] at h
    by_cases hok : (read_from_file m CppString.mk0
        { w with prompt_calls := w.prompt_calls + 1 }).ok = true
    · rw [if_pos hok] at h
      simp only [Option.some.injEq] at h
      rw [← h]
      have := read_from_file_loop_size_le m (CppString.mk0.reserve w.fresh m)
        { w with prompt_calls := w.prompt_calls + 1 }
      rw [reserve_size] at this
      have hz : CppString.mk0.size = 0 := rfl
      rw [hz, Nat.zero_add] at this
      exact this
    · rw [if_neg hok] at h
      simp at h

/-! ## Erased bytes -/

/-- The erase of the last byte on the storage: the byte is overwritten with
zero and falls behind the length. -/
theorem pop_storage (s : CppString) (he : ¬ s.empty = true) :
    ((s.set_back 0).resize (s.size - 1)).content = s.content.dropLast ∧
      ((s.set_back 0).resize (s.size - 1)).slack = 0 :: s.slack := by
  have hne : s.content ≠ [] := by simpa [CppString.empty] using he
  have hle : s.size - 1 ≤ (s.set_back 0).size := by
    simp [CppString.size, CppString.set_back]
  simp only [CppString.resize, if_pos hle]
  simp only [CppString.set_back, CppString.size]
  rw [set_last_zero _ hne]
  constructor
  · rw [List.take_append_of_le_length (by simp)]
    simp [List.dropLast_eq_take]
  · rw [List.drop_append_of_le_length (by simp)]
    simp

theorem pop_zero_tail (s : CppString) (h : zero_tail s) (he : ¬ s.empty = true) :
    zero_tail ((s.set_back 0).resize (s.size - 1)) := by
  intro b hb
  rw [(pop_storage s he).2] at hb
  rcases List.mem_cons.mp hb with hb | hb
  · exact hb
  · exact h b hb

theorem push_back_zero_tail (s : CppString) (c : Nat) (h : zero_tail s) :
    zero_tail (s.push_back c) := by
  unfold CppString.push_back
  intro b hb
  split at hb
  · simp at hb
  · rename_i x sl hs
    exact h b (by rw [hs]; exact List.mem_cons_of_mem _ hb)

theorem type_key_zero_tail (s : CppString) (k : Nat) (h : zero_tail s) :
    zero_tail (type_key s k) := by
  unfold type_key
  split_ifs with hk he
  · exact h
  · exact pop_zero_tail s h he
  · exact push_back_zero_tail s k h

theorem reserve_of_le (f n : Nat) (s : CppString) (h : n ≤ s.capacity) :
    s.reserve f n = s := by
  unfold CppString.reserve
  rw [if_pos h]

theorem read_from_tty_loop_zero_tail (m : Nat) (p : CppString) (w : World)
    (h : zero_tail p) : zero_tail (read_from_tty_loop m p w).pass :=
  read_from_tty_loop_invariant m zero_tail (fun s hs he => pop_zero_tail s hs he)
    (fun s c hs _ => push_back_zero_tail s c hs) p w h

theorem read_from_tty_win32_loop_zero_tail (m : Nat) (p : CppString) (w : World)
    (h : zero_tail p) : zero_tail (read_from_tty_win32_loop m p w).pass :=
  read_from_tty_win32_loop_invariant m zero_tail (fun s hs he => pop_zero_tail s hs he)
    (fun s c hs _ => push_back_zero_tail s c hs) p w h

/-! ## What `prompt` writes -/

theorem read_from_tty_stdout (m : Nat) (p : CppString) (w : World) :
    ∃ d : List Nat, (read_from_tty m p w).world.stdout = w.stdout ++ d :=
  ⟨_, read_from_tty_loop_display m w.stdin _ w rfl⟩

theorem show_message_stdout (msg : Option (List Nat)) (w : World) :
    (show_message msg w).stdout = w.stdout ++ prompt_bytes msg := by
  rw [show_message_after]
  rfl

theorem cout_stdout (b : List Nat) (w : World) : (cout b w).stdout = w.stdout ++ b := rfl

/-- The loop writes the message first, then whatever else. -/
theorem read_from_tty_verify_stdout (m : Nat) (v : Bool) (msg : Option (List Nat))
    (p1 p2 : CppString) (w : World) :
    ∃ d : List Nat,
      (read_from_tty_verify m v msg p1 p2 w).world.stdout = w.stdout ++ prompt_bytes msg ++ d := by
  induction p1, p2, w using read_from_tty_verify.induct m v msg with
  | case1 p1 p2 w r1 h1 =>
    have h1' : r1.ok = false := by simpa using h1
    rw [read_from_tty_verify_fail1 m v msg p1 p2 w h1']
    obtain ⟨d, hd⟩ := read_from_tty_stdout m p1 (show_message msg w)
    exact ⟨d, by rw [hd, show_message_stdout]⟩
  | case2 p1 p2 w r1 h1 hv r2 h2 =>
    have h1' : r1.ok = true := by simpa using h1
    have h2' : r2.ok = false := by simpa using h2
    subst hv
    rw [read_from_tty_verify_fail2 m msg p1 p2 w h1' h2']
    obtain ⟨d, hd⟩ := read_from_tty_stdout m p1 (show_message msg w)
    obtain ⟨d2, hd2⟩ := read_from_tty_stdout m p2 (cout (bytes "Confirm Password: ") r1.world)
    refine ⟨d ++ bytes "Confirm Password: " ++ d2, ?_⟩
    show r2.world.stdout = _
    rw [hd2, cout_stdout, hd, show_message_stdout]
    simp
  | case3 p1 p2 w r1 h1 hv r2 h2 hne ih =>
    have h1' : r1.ok = true := by simpa using h1
    have h2' : r2.ok = true := by simpa using h2
    subst hv
    rw [read_from_tty_verify_retry m msg p1 p2 w h1' h2' hne]
    obtain ⟨d, hd⟩ := read_from_tty_stdout m p1 (show_message msg w)
    obtain ⟨d2, hd2⟩ := read_from_tty_stdout m p2 (cout (bytes "Confirm Password: ") r1.world)
    obtain ⟨d3, hd3⟩ := ih
    refine ⟨d ++ bytes "Confirm Password: " ++ d2 ++
      (bytes "Passwords do not match! Please try again." ++ [10]) ++ prompt_bytes msg ++ d3, ?_⟩
    rw [hd3, cout_stdout]
    have e2 : r2.world.stdout = _ := hd2
    rw [e2, cout_stdout]
    have e1 : r1.world.stdout = _ := hd
    rw [e1, show_message_stdout]
    simp
  | case4 p1 p2 w r1 h1 hv r2 h2 heq =>
    have h1' : r1.ok = true := by simpa using h1
    have h2' : r2.ok = true := by simpa using h2
    subst hv
    rw [read_from_tty_verify_match m msg p1 p2 w h1' h2' (not_not.mp heq)]
    obtain ⟨d, hd⟩ := read_from_tty_stdout m p1 (show_message msg w)
    obtain ⟨d2, hd2⟩ := read_from_tty_stdout m p2 (cout (bytes "Confirm Password: ") r1.world)
    refine ⟨d ++ bytes "Confirm Password: " ++ d2, ?_⟩
    show r2.world.stdout = _
    rw [hd2, cout_stdout, hd, show_message_stdout]
    simp
  | case5 p1 p2 w r1 h1 hv =>
    have h1' : r1.ok = true := by simpa using h1
    have hv' : v = false := by simpa using hv
    subst hv'
    rw [read_from_tty_verify_single m msg p1 p2 w h1']
    obtain ⟨d, hd⟩ := read_from_tty_stdout m p1 (show_message msg w)
    exact ⟨d, by rw [hd, show_message_stdout]⟩

theorem cin_get_stdout (w : World) : (cin_get w).2.stdout = w.stdout := by
  unfold cin_get
  split_ifs
  · rfl
  · rcases h : w.stdin with _ | ⟨i, rest⟩
    · rfl
    · cases i <;> rfl

theorem read_from_file_loop_stdout (n : Nat) :
    ∀ (s : CppString) (w : World), (read_from_file_loop n s w).world.stdout = w.stdout := by
  induction n with
  | zero => intro s w; rfl
  | succ n ih =>
    intro s w
    rw [read_from_file_loop]
    split_ifs
    · exact cin_get_stdout w
    · exact cin_get_stdout w
    · rw [ih]
      exact cin_get_stdout w

theorem prompt_file_stdout (m : Nat) (v : Bool) (msg : Option (List Nat)) (w : World)
    (hfile : w.stdin_is_tty = false) :
    (password_container.prompt m v msg w).2.stdout = w.stdout := by
  rw [prompt_file m v msg w hfile]
  split_ifs <;> exact read_from_file_loop_stdout m _ _

theorem prompt_tty_stdout (m : Nat) (v : Bool) (msg : Option (List Nat)) (w : World)
    (htty : w.stdin_is_tty = true) :
    ∃ d : List Nat,
      (password_container.prompt m v msg w).2.stdout = w.stdout ++ prompt_bytes msg ++ d := by
  rw [prompt_tty m v msg w htty]
  obtain ⟨d, hd⟩ := read_from_tty_verify_stdout m v msg CppString.mk0 CppString.mk0
    { w with prompt_calls := w.prompt_calls + 1 }
  refine ⟨d, ?_⟩
  split_ifs <;> exact hd

/-! ## The iterations of the confirm-and-retry loop -/

/-- The measure that every retry lowers: twice the keystrokes left, plus one
while a buffer is not empty. -/
theorem read_from_tty_verify_iter_enough (m : Nat) (v : Bool) (msg : Option (List Nat))
    (p1 p2 : CppString) (w : World) :
    ∀ n, 2 * w.stdin.length + (if p1.size = 0 ∧ p2.size = 0 then 0 else 1) < n →
      read_from_tty_verify_iter m v msg n p1 p2 w =
        some (read_from_tty_verify m v msg p1 p2 w) := by
  induction p1, p2, w using read_from_tty_verify.induct m v msg with
  | case1 p1 p2 w r1 h1 =>
    intro n hn
    obtain ⟨k, rfl⟩ : ∃ k, n = k + 1 := ⟨n - 1, by omega⟩
    have h1' : (read_from_tty m p1 (show_message msg w)).ok = false := by simpa using h1
    rw [read_from_tty_verify_fail1 m v msg p1 p2 w h1']
    simp [read_from_tty_verify_iter, h1']
  | case2 p1 p2 w r1 h1 hv r2 h2 =>
    intro n hn
    obtain ⟨k, rfl⟩ : ∃ k, n = k + 1 := ⟨n - 1, by omega⟩
    have h1' : (read_from_tty m p1 (show_message msg w)).ok = true := by simpa using h1
    have h2' : (read_from_tty m p2 (cout (bytes "Confirm Password: ") (read_from_tty m p1 (show_message msg w)).world)).ok
        = false := by simpa using h2
    subst hv
    rw [read_from_tty_verify_fail2 m msg p1 p2 w h1' h2']
    simp [read_from_tty_verify_iter, h1', h2']
  | case3 p1 p2 w r1 h1 hv r2 h2 hne ih =>
    intro n hn
    obtain ⟨k, rfl⟩ : ∃ k, n = k + 1 := ⟨n - 1, by omega⟩
    have h1' : (read_from_tty m p1 (show_message msg w)).ok = true := by simpa using h1
    have h2' : (read_from_tty m p2 (cout (bytes "Confirm Password: ") (read_from_tty m p1 (show_message msg w)).world)).ok
        = true := by simpa using h2
    subst hv
    have hdec := read_from_tty_verify_decreases m msg p1 p2 w (bytes "Confirm Password: ")
      (bytes "Passwords do not match! Please try again." ++ [10]) h1' hne
    rw [read_from_tty_verify_retry m msg p1 p2 w h1' h2' hne]
    have step : read_from_tty_verify_iter m true msg (k + 1) p1 p2 w =
        read_from_tty_verify_iter m true msg k (clear r1.pass) (clear r2.pass)
          (cout (bytes "Passwords do not match! Please try again." ++ [10]) r2.world) := by
      have hne' : (read_from_tty m p1 (show_message msg w)).pass.content ≠
          (read_from_tty m p2 (cout (bytes "Confirm Password: ") (read_from_tty m p1 (show_message msg w)).world)).pass.content := hne
      simp [read_from_tty_verify_iter, h1', h2', hne']
    rw [step]
    apply ih
    rw [clear_size, clear_size]
    simp only [and_self, if_true, Nat.add_zero]
    have hdec' : 2 * (cout (bytes "Passwords do not match! Please try again." ++ [10])
        r2.world).stdin.length <
        2 * w.stdin.length + (if p1.size = 0 ∧ p2.size = 0 then 0 else 1) := hdec
    omega
  | case4 p1 p2 w r1 h1 hv r2 h2 heq =>
    intro n hn
    obtain ⟨k, rfl⟩ : ∃ k, n = k + 1 := ⟨n - 1, by omega⟩
    have h1' : (read_from_tty m p1 (show_message msg w)).ok = true := by simpa using h1
    have h2' : (read_from_tty m p2 (cout (bytes "Confirm Password: ") (read_from_tty m p1 (show_message msg w)).world)).ok
        = true := by simpa using h2
    have heq' : (read_from_tty m p1 (show_message msg w)).pass.content =
        (read_from_tty m p2 (cout (bytes "Confirm Password: ") (read_from_tty m p1 (show_message msg w)).world)).pass.content := not_not.mp heq
    subst hv
    rw [read_from_tty_verify_match m msg p1 p2 w h1' h2' heq']
    simp [read_from_tty_verify_iter, h1', h2', heq']
  | case5 p1 p2 w r1 h1 hv =>
    intro n hn
    obtain ⟨k, rfl⟩ : ∃ k, n = k + 1 := ⟨n - 1, by omega⟩
    have h1' : (read_from_tty m p1 (show_message msg w)).ok = true := by simpa using h1
    have hv' : v = false := by simpa using hv
    subst hv'
    rw [read_from_tty_verify_single m msg p1 p2 w h1']
    simp [read_from_tty_verify_iter, h1']

/-! ## The claims -/

/-- C1: in interactive mode with `verify` set, on rounds of terminated entries
each shorter than `max_password_size`, `prompt` returns the entry of the first
round whose two entries are equal, having displayed one round and one mismatch
notice for every earlier round and consumed exactly the rounds; the storage
behind the returned secret holds only zero bytes and allocator filling, so no
byte of an earlier attempt; and the loop never returns `true` while the two
buffers differ. -/
theorem prompt_verify_returns_first_match (max_password_size : Nat)
    (message : Option (List Nat)) (w : World) (failed : List Attempt) (last : Attempt)
    (rest : List Input) (htty : w.stdin_is_tty = true)
    (hfailed : ∀ a ∈ failed, a.ok max_password_size ∧
      applyKeys [] a.first ≠ applyKeys [] a.second)
    (hlast : last.ok max_password_size)
    (hsame : applyKeys [] last.first = applyKeys [] last.second)
    (hin : w.stdin = all_keys failed ++ (last.keys ++ rest)) :
    (∃ (p : password_container) (w' : World),
        password_container.prompt max_password_size true message w = (some p, w') ∧
        p.m_password.content = applyKeys [] last.first ∧
        (∀ b ∈ p.m_password.slack, b = 0 ∨ b = w.fresh) ∧
        w'.stdin = rest ∧
        w'.stdout = w.stdout ++ (retry_display message failed ++ last.display message)) ∧
      (∀ (msg : Option (List Nat)) (p1 p2 : CppString) (w0 : World),
        (read_from_tty_verify max_password_size true msg p1 p2 w0).ok = true →
        (read_from_tty_verify max_password_size true msg p1 p2 w0).pass1.content =
          (read_from_tty_verify max_password_size true msg p1 p2 w0).pass2.content) := by
  refine ⟨?_, fun msg p1 p2 w0 => read_from_tty_verify_ok_equal max_password_size msg p1 p2 w0⟩
  obtain ⟨r1, r2, r3, r4⟩ := read_from_tty_verify_rounds max_password_size message last rest
    hlast hsame failed CppString.mk0 CppString.mk0
    { w with prompt_calls := w.prompt_calls + 1 } rfl rfl
    (by intro b hb; simp [CppString.mk0] at hb) hfailed hin
  rw [prompt_tty max_password_size true message w htty, if_pos r1]
  exact ⟨_, _, rfl, r2, r3, by rw [r4]; rfl, by rw [r4]; rfl⟩

/-- Witness of C1: `ab` confirmed by `ac` is retried, `d` confirmed by `d` is
returned. -/
theorem prompt_verify_returns_first_match_witness :
    ∃ (p : password_container) (w' : World),
      password_container.prompt 8 true none
          ⟨[97, 98, 10, 97, 99, 10, 100, 13, 100, 10, 1].map Input.byte, true, false, false,
            false, [], 0, 7, 0, 0⟩ = (some p, w') ∧
        p.m_password.content = [100] ∧
        (∀ b ∈ p.m_password.slack, b = 0 ∨ b = 7) ∧
        w'.stdin = [Input.byte 1] ∧
        w'.stdout = [] ++ (retry_display none [⟨[97, 98], 10, [97, 99], 10⟩] ++
          Attempt.display none ⟨[100], 13, [100], 10⟩) :=
  (prompt_verify_returns_first_match 8 none
    ⟨[97, 98, 10, 97, 99, 10, 100, 13, 100, 10, 1].map Input.byte, true, false, false,
      false, [], 0, 7, 0, 0⟩
    [⟨[97, 98], 10, [97, 99], 10⟩] ⟨[100], 13, [100], 10⟩ [Input.byte 1] rfl
    (by decide) (by decide) (by decide) rfl).1

/-- C2: when the string holds a `:`, `login::parse` returns a value without
any prompt (the world, its call counter included, is untouched), and the
string is the username, a `:` and the password, the username holding no
`:`. -/
theorem parse_splits_at_first_colon (max_password_size : Nat) (userpass : CppString)
    (verify : Bool) (message : Option (List Nat)) (w : World)
    (h : 58 ∈ userpass.content) :
    ∃ l : login, login.parse max_password_size userpass verify message w = (some l, w) ∧
      userpass.content = l.username.content ++ [58] ++ l.password.m_password.content ∧
      58 ∉ l.username.content := by
  obtain ⟨e1, e2⟩ := indexOf_split 58 userpass.content h
  refine ⟨⟨userpass.substr 0 (some (userpass.content.indexOf 58)),
    ⟨userpass.substr (userpass.content.indexOf 58 + 1) none⟩⟩, ?_, ?_, ?_⟩
  · simp only [login.parse, find_some 58 userpass h]
  · simpa [CppString.substr, CppString.ofList] using e1
  · simpa [CppString.substr, CppString.ofList] using e2

/-- Witness of C2: `"alice:secret"` parses to `alice` and `secret`. -/
theorem parse_splits_at_first_colon_witness :
    ∃ l : login, login.parse 1000 (CppString.ofList [97, 108, 105, 99, 101, 58, 115, 101])
        false none ⟨[], true, false, false, false, [], 0, 7, 0, 0⟩
        = (some l, ⟨[], true, false, false, false, [], 0, 7, 0, 0⟩) ∧
      (CppString.ofList [97, 108, 105, 99, 101, 58, 115, 101]).content =
        l.username.content ++ [58] ++ l.password.m_password.content ∧
      58 ∉ l.username.content :=
  parse_splits_at_first_colon 1000 (CppString.ofList [97, 108, 105, 99, 101, 58, 115, 101])
    false none _ (by decide)

/-- C3: when the string holds no `:` and the prompt yields `p`, `login::parse`
returns the whole string as username and `p` as password, in the world the
prompt left, and the prompt has been called exactly once. -/
theorem parse_prompts_once_without_colon (max_password_size : Nat) (userpass : CppString)
    (verify : Bool) (message : Option (List Nat)) (w w' : World) (p : password_container)
    (h : 58 ∉ userpass.content)
    (hp : password_container.prompt max_password_size verify message w = (some p, w')) :
    ∃ u : CppString,
      login.parse max_password_size userpass verify message w = (some ⟨u, p⟩, w') ∧
      u.content = userpass.content ∧ w'.prompt_calls = w.prompt_calls + 1 := by
  refine ⟨userpass.substr 0 none, ?_, ?_, ?_⟩
  · simp only [login.parse, find_none 58 userpass h, hp]
  · simp [CppString.substr, CppString.ofList]
  · have := prompt_prompt_calls max_password_size verify message w
    rw [hp] at this
    exact this

/-- Witness of C3: `"al"` with the keystrokes `p`, newline. -/
theorem parse_prompts_once_without_colon_witness :
    ∃ u : CppString,
      login.parse 2 (CppString.ofList [97, 108]) false none
          ⟨[Input.byte 112, Input.byte 10], true, false, false, false, [], 0, 7, 0, 0⟩
        = (some ⟨u, ⟨⟨[112], [7]⟩⟩⟩, ⟨[], true, false, false, false, [42, 10], 0, 7, 1, 0⟩) ∧
      u.content = [97, 108] ∧ (1 : Nat) = 0 + 1 :=
  parse_prompts_once_without_colon 2 (CppString.ofList [97, 108]) false none
    ⟨[Input.byte 112, Input.byte 10], true, false, false, false, [], 0, 7, 0, 0⟩
    ⟨[], true, false, false, false, [42, 10], 0, 7, 1, 0⟩ ⟨⟨[112], [7]⟩⟩ (by decide)
    (by
      simp [password_container.prompt, is_cin_tty, read_from_tty_verify, show_message,
        read_from_tty, read_from_tty_loop, getch, getchar, CppString.reserve, CppString.mk0,
        CppString.capacity, CppString.size, CppString.push_back, cout, EOF, BACKSPACE, toChar,
        clearBits])

/-- C4: keystrokes without terminator and without read failure, at most
`max_password_size` of them, typed into an empty buffer leave it equal to the
keystrokes applied left to right (backspace removes the last byte if there is
one, every other byte is appended), wherever the entry then stops. -/
theorem read_from_tty_applies_keystrokes (max_password_size : Nat) (ks : List Nat)
    (tail : List Input) (aPass : CppString) (w : World)
    (hempty : aPass.size = 0) (hks : ∀ k ∈ ks, plain k)
    (hlen : ks.length ≤ max_password_size)
    (hin : w.stdin = ks.map Input.byte ++ tail) (htail : stops tail) :
    (read_from_tty max_password_size aPass w).pass.content = applyKeys [] ks := by
  have hc : aPass.content = [] := List.length_eq_zero.mp hempty
  unfold read_from_tty
  rw [read_from_tty_loop_keys max_password_size tail ks _ w hks
    (by rw [reserve_size]; omega) hin,
    read_from_tty_loop_stops _ _ _ (by simpa [World.after] using htail),
    type_keys_content, reserve_content, hc]

/-- Witness of C4: `a`, `b`, BACKSPACE, `c` gives `ac`. -/
theorem read_from_tty_applies_keystrokes_witness :
    (read_from_tty 4 CppString.mk0
      ⟨[Input.byte 97, Input.byte 98, Input.byte 127, Input.byte 99], true, false, false, false,
        [], 0, 7, 0, 0⟩).pass.content = [97, 99] :=
  read_from_tty_applies_keystrokes 4 [97, 98, 127, 99] [] CppString.mk0 _ rfl (by decide)
    (by decide) rfl trivial

/-- C5: on a stream `p ++ [t] ++ rest` with `p` free of terminators and
shorter than `max_password_size` and `t` a terminator, the stream reader
started on an empty buffer succeeds with buffer exactly `p` and leaves exactly
`rest` unread, the stream still good. -/
theorem read_from_file_reads_one_line (max_password_size : Nat) (p : List Nat) (t : Nat)
    (rest : List Input) (pass : CppString) (w : World)
    (hempty : pass.size = 0) (hgood : cin_good w) (hp : ∀ b ∈ p, plain b)
    (hlen : p.length < max_password_size) (ht : t = 10 ∨ t = 13)
    (hin : w.stdin = p.map Input.byte ++ Input.byte t :: rest) :
    (read_from_file max_password_size pass w).ok = true ∧
      (read_from_file max_password_size pass w).pass.content = p ∧
      (read_from_file max_password_size pass w).world = { w with stdin := rest } := by
  have hc : pass.content = [] := List.length_eq_zero.mp hempty
  obtain ⟨k, hk⟩ : ∃ k, max_password_size - p.length = k + 1 :=
    ⟨max_password_size - p.length - 1, by omega⟩
  unfold read_from_file
  rw [read_from_file_loop_bytes (Input.byte t :: rest) p max_password_size _ w hgood
    (plain_not_terminator hp) (by omega) hin, hk,
    read_from_file_loop_terminator k _ _ t rest (after_good w _ _ hgood) rfl
      (by rcases ht with h | h <;> simp [h]),
    map_mod_plain p hp]
  refine ⟨rfl, ?_, ?_⟩
  · simp [push_all_content, reserve_content, hc]
  · simp [World.after]

/-- Witness of C5: `"hunter2\nignored"` yields `"hunter2"` and leaves
`"ignored"`. -/
theorem read_from_file_reads_one_line_witness :
    (read_from_file 1000 CppString.mk0
      ⟨[104, 117, 110, 116, 101, 114, 50, 10, 105, 103, 110, 111, 114, 101, 100].map Input.byte,
        false, false, false, false, [], 0, 7, 0, 0⟩).pass.content
      = [104, 117, 110, 116, 101, 114, 50] :=
  (read_from_file_reads_one_line 1000 [104, 117, 110, 116, 101, 114, 50] 10
    ([105, 103, 110, 111, 114, 101, 100].map Input.byte) CppString.mk0 _ rfl (by decide)
    (by decide) (by decide) (Or.inl rfl) rfl).2.1

/-- C6: after the scrub `clear` the buffer has length zero and every byte of
its backing storage, over the whole capacity, is zero; the destructor of the
container applies this scrub to its secret. -/
theorem clear_scrubs_whole_storage (pass : CppString) (p : password_container) :
    (clear pass).size = 0 ∧ (clear pass).capacity = pass.capacity ∧
      (clear pass).storage = List.replicate pass.capacity 0 ∧
      p.destroy.m_password = clear p.m_password := by
  refine ⟨rfl, ?_, ?_, rfl⟩ <;>
    simp [clear, CppString.replace, CppString.clear, CppString.capacity, CppString.storage,
      CppString.size]

/-- C7: two runs of the terminal reader on buffers of the same length, whose
keystroke sequences have the same length and agree position by position on the
class of each keystroke, write exactly the same bytes to the display, and
every byte written is `*`, backspace, space or newline; so for the POSIX reader
and for the Windows reader, each with its own backspace code. -/
theorem read_from_tty_display_hides_secret (max_password_size : Nat) (p1 p2 : CppString)
    (w1 w2 : World) (hsize : p1.size = p2.size) :
    (w1.stdin.map keyClass = w2.stdin.map keyClass →
      ∃ d : List Nat,
        (read_from_tty max_password_size p1 w1).world.stdout = w1.stdout ++ d ∧
        (read_from_tty max_password_size p2 w2).world.stdout = w2.stdout ++ d ∧
        ∀ b ∈ d, b = 42 ∨ b = 8 ∨ b = 32 ∨ b = 10) ∧
    (w1.stdin.map keyClass_win32 = w2.stdin.map keyClass_win32 →
      ∃ d : List Nat,
        (read_from_tty_win32 max_password_size p1 w1).world.stdout = w1.stdout ++ d ∧
        (read_from_tty_win32 max_password_size p2 w2).world.stdout = w2.stdout ++ d ∧
        ∀ b ∈ d, b = 42 ∨ b = 8 ∨ b = 32 ∨ b = 10) := by
  constructor
  · intro hclass
    refine ⟨displayOf max_password_size p1.size (w1.stdin.map keyClass), ?_, ?_, ?_⟩
    · unfold read_from_tty
      rw [read_from_tty_loop_display max_password_size w1.stdin _ w1 rfl, reserve_size]
    · unfold read_from_tty
      rw [read_from_tty_loop_display max_password_size w2.stdin _ w2 rfl, reserve_size,
        hsize, hclass]
    · exact displayOf_mem max_password_size _ _
  · intro hclass
    refine ⟨displayOf max_password_size p1.size (w1.stdin.map keyClass_win32), ?_, ?_, ?_⟩
    · exact read_from_tty_win32_display max_password_size p1 w1
    · rw [read_from_tty_win32_display max_password_size p2 w2, hsize, hclass]
    · exact displayOf_mem max_password_size _ _

/-- Witness of C7: `ab`, newline and `xy`, return are displayed alike, by the
POSIX reader and by the Windows reader. -/
theorem read_from_tty_display_hides_secret_witness :
    (∃ d : List Nat,
      (read_from_tty 8 CppString.mk0
        ⟨[Input.byte 97, Input.byte 98, Input.byte 10], true, false, false, false, [], 0, 7,
          0, 0⟩).world.stdout = [] ++ d ∧
      (read_from_tty 8 CppString.mk0
        ⟨[Input.byte 120, Input.byte 121, Input.byte 13], true, false, false, false, [], 0, 7,
          0, 0⟩).world.stdout = [] ++ d ∧
      ∀ b ∈ d, b = 42 ∨ b = 8 ∨ b = 32 ∨ b = 10) ∧
    (∃ d : List Nat,
      (read_from_tty_win32 8 CppString.mk0
        ⟨[Input.byte 97, Input.byte 98, Input.byte 10], true, false, false, false, [], 0, 7,
          0, 0⟩).world.stdout = [] ++ d ∧
      (read_from_tty_win32 8 CppString.mk0
        ⟨[Input.byte 120, Input.byte 121, Input.byte 13], true, false, false, false, [], 0, 7,
          0, 0⟩).world.stdout = [] ++ d ∧
      ∀ b ∈ d, b = 42 ∨ b = 8 ∨ b = 32 ∨ b = 10) :=
  ⟨(read_from_tty_display_hides_secret 8 CppString.mk0 CppString.mk0
      ⟨[Input.byte 97, Input.byte 98, Input.byte 10], true, false, false, false, [], 0, 7, 0, 0⟩
      ⟨[Input.byte 120, Input.byte 121, Input.byte 13], true, false, false, false, [], 0, 7, 0,
        0⟩ rfl).1 (by decide),
    (read_from_tty_display_hides_secret 8 CppString.mk0 CppString.mk0
      ⟨[Input.byte 97, Input.byte 98, Input.byte 10], true, false, false, false, [], 0, 7, 0, 0⟩
      ⟨[Input.byte 120, Input.byte 121, Input.byte 13], true, false, false, false, [], 0, 7, 0,
        0⟩ rfl).2 (by decide)⟩

/-- C8: in interactive mode `prompt` returns no value exactly when a keystroke
read failed during the call (the reads it makes are those of the first entry
and, when `verify` is set, of the confirmation entries); an entry that is
terminated at once yields a value holding the empty password. -/
theorem prompt_none_iff_read_failed (max_password_size : Nat) (verify : Bool)
    (message : Option (List Nat)) (w : World) (htty : w.stdin_is_tty = true) :
    ((password_container.prompt max_password_size verify message w).1 = none ↔
        w.read_failures <
          (password_container.prompt max_password_size verify message w).2.read_failures) ∧
      (∀ (t t' : Nat) (rest : List Input), (t % 256 = 10 ∨ t % 256 = 13) →
        (t' % 256 = 10 ∨ t' % 256 = 13) →
        (w.stdin = Input.byte t :: Input.byte t' :: rest ∨
          (verify = false ∧ w.stdin = Input.byte t :: rest)) →
        ∃ p : password_container,
          (password_container.prompt max_password_size verify message w).1 = some p ∧
            p.m_password.content = []) := by
  have hf := read_from_tty_verify_frame max_password_size verify message CppString.mk0
    CppString.mk0 { w with prompt_calls := w.prompt_calls + 1 }
  rw [prompt_tty max_password_size verify message w htty]
  refine ⟨?_, ?_⟩
  · rcases hok : (read_from_tty_verify max_password_size verify message CppString.mk0
        CppString.mk0 { w with prompt_calls := w.prompt_calls + 1 }).ok
    · rw [hok] at hf
      have := hf.2.2
      simp only [Bool.false_eq_true, if_false] at this ⊢
      simp only [this, true_iff]
      show w.read_failures < w.read_failures + 1
      omega
    · rw [hok] at hf
      have := hf.2.2
      simp only [if_true] at this ⊢
      simp only [this]
      simp
  · intro t t' rest ht ht' hin
    have hin1 : ∃ r, (show_message message
        { w with prompt_calls := w.prompt_calls + 1 }).stdin = Input.byte t :: r ∧
        (r = Input.byte t' :: rest ∨ verify = false) := by
      rw [show_message_stdin]
      rcases hin with h | ⟨hv, h⟩
      · exact ⟨_, h, Or.inl rfl⟩
      · exact ⟨_, h, Or.inr hv⟩
    obtain ⟨r, hr, hcase⟩ := hin1
    obtain ⟨a1, a2, a3⟩ := read_from_tty_terminated_at_once max_password_size CppString.mk0
      (show_message message { w with prompt_calls := w.prompt_calls + 1 }) t r rfl hr ht
    cases verify with
    | false =>
      rw [read_from_tty_verify_single max_password_size message _ _ _ a1]
      exact ⟨_, rfl, a2⟩
    | true =>
      have hr' : r = Input.byte t' :: rest := by simpa using hcase
      have hin2 : ∃ t2 r2, (cout (bytes "Confirm Password: ")
          (read_from_tty max_password_size CppString.mk0 (show_message message
            { w with prompt_calls := w.prompt_calls + 1 })).world).stdin = Input.byte t2 :: r2 ∧
          (t2 % 256 = 10 ∨ t2 % 256 = 13) := by
        rw [cout_stdin]
        rcases a3 with ⟨_, e⟩ | ⟨_, e⟩
        · rw [e]
          exact ⟨t', rest, by simp [World.after, hr'], ht'⟩
        · rw [e]
          exact ⟨t, r, hr, ht⟩
      obtain ⟨t2, r2, hr2, ht2⟩ := hin2
      obtain ⟨b1, b2, _⟩ := read_from_tty_terminated_at_once max_password_size CppString.mk0
        _ t2 r2 rfl hr2 ht2
      rw [read_from_tty_verify_match max_password_size message _ _ _ a1 b1 (by rw [a2, b2])]
      exact ⟨_, rfl, a2⟩

/-- Witness of C8: a lone newline gives the empty password, not "no value",
and end of file at the first keystroke gives "no value". -/
theorem prompt_none_iff_read_failed_witness :
    (∃ p : password_container,
      (password_container.prompt 8 false none
        ⟨[Input.byte 10], true, false, false, false, [], 0, 7, 0, 0⟩).1 = some p ∧
        p.m_password.content = []) ∧
    (password_container.prompt 8 true none
      ⟨[Input.eof], true, false, false, false, [], 0, 7, 0, 0⟩).1 = none :=
  ⟨(prompt_none_iff_read_failed 8 false none
      ⟨[Input.byte 10], true, false, false, false, [], 0, 7, 0, 0⟩ rfl).2 10 10 []
      (by decide) (by decide) (Or.inr ⟨rfl, rfl⟩),
    (prompt_none_iff_read_failed 8 true none
      ⟨[Input.eof], true, false, false, false, [], 0, 7, 0, 0⟩ rfl).1.mpr (by
        simp [password_container.prompt, is_cin_tty, read_from_tty_verify, show_message,
          read_from_tty, read_from_tty_loop, getch, getchar, CppString.reserve, CppString.mk0,
          CppString.capacity, CppString.size, EOF, clearBits])⟩

/-- C9: on a good stream the stream reader returns failure exactly when a read
error comes before a terminator, the end of the stream and the
`max_password_size`-th byte; and when the stream ends without a terminator it
returns success with exactly the bytes read, at most `max_password_size` of
them (the buffer is left as it was for an empty stream). -/
theorem read_from_file_fails_iff_read_error (max_password_size : Nat) (pass : CppString)
    (w : World) (hgood : cin_good w) :
    ((read_from_file max_password_size pass w).ok = false ↔
        ∃ (p : List Nat) (rest : List Input), w.stdin = p.map Input.byte ++ Input.error :: rest ∧
          p.length < max_password_size ∧ ∀ b ∈ p, b % 256 ≠ 10 ∧ b % 256 ≠ 13) ∧
      (∀ p : List Nat, (∀ b ∈ p, plain b) →
        (w.stdin = p.map Input.byte ∨ ∃ rest, w.stdin = p.map Input.byte ++ Input.eof :: rest) →
        (read_from_file max_password_size pass w).ok = true ∧
          (read_from_file max_password_size pass w).pass.content =
            pass.content ++ p.take max_password_size) := by
  refine ⟨⟨read_from_file_loop_fails max_password_size _ w hgood, ?_⟩, ?_⟩
  · rintro ⟨p, rest, hin, hlen, hp⟩
    obtain ⟨k, hk⟩ : ∃ k, max_password_size - p.length = k + 1 :=
      ⟨max_password_size - p.length - 1, by omega⟩
    unfold read_from_file
    rw [read_from_file_loop_bytes (Input.error :: rest) p max_password_size _ w hgood hp
      (by omega) hin, hk, read_from_file_loop_error k _ _ rest (after_good w _ _ hgood) rfl]
  · intro p hp hin
    have hq : ∀ b ∈ p.take max_password_size, plain b :=
      fun b hb => hp b (List.mem_of_mem_take hb)
    have hsplit : ∃ tail, w.stdin = (p.take max_password_size).map Input.byte ++ tail ∧
        (max_password_size ≤ p.length ∨ tail = [] ∨ ∃ rest, tail = Input.eof :: rest) := by
      by_cases hl : max_password_size ≤ p.length
      · rcases hin with h | ⟨rest, h⟩
        · exact ⟨(p.drop max_password_size).map Input.byte, by
            rw [h, ← List.map_append, List.take_append_drop], Or.inl hl⟩
        · exact ⟨(p.drop max_password_size).map Input.byte ++ Input.eof :: rest, by
            rw [h, ← List.append_assoc, ← List.map_append, List.take_append_drop], Or.inl hl⟩
      · have ht : p.take max_password_size = p := List.take_of_length_le (by omega)
        rcases hin with h | ⟨rest, h⟩
        · exact ⟨[], by rw [ht, h]; simp, Or.inr (Or.inl rfl)⟩
        · exact ⟨Input.eof :: rest, by rw [ht, h], Or.inr (Or.inr ⟨rest, rfl⟩)⟩
    obtain ⟨tail, htail, hcase⟩ := hsplit
    have hlen : (p.take max_password_size).length ≤ max_password_size := by
      rw [List.length_take]
      omega
    unfold read_from_file
    rw [read_from_file_loop_bytes tail _ max_password_size _ w hgood
      (plain_not_terminator hq) hlen htail, map_mod_plain _ hq]
    rcases Nat.eq_zero_or_pos (max_password_size - (p.take max_password_size).length) with h0 | hpos
    · rw [h0]
      simp [read_from_file_loop, push_all_content, reserve_content]
    · obtain ⟨k, hk⟩ : ∃ k, max_password_size - (p.take max_password_size).length = k + 1 :=
        ⟨max_password_size - (p.take max_password_size).length - 1, by omega⟩
      rw [hk]
      rcases hcase with hl | rfl | ⟨rest, rfl⟩
      · rw [List.length_take] at hpos
        omega
      · rw [read_from_file_loop_nil k _ _ (after_good w _ _ hgood) rfl]
        simp [push_all_content, reserve_content]
      · rw [read_from_file_loop_eof k _ _ rest (after_good w _ _ hgood) rfl]
        simp [push_all_content, reserve_content]

/-- Witness of C9: the stream `a`, read error fails the reader, the empty
stream does not. -/
theorem read_from_file_fails_iff_read_error_witness :
    (read_from_file 8 CppString.mk0
        ⟨[Input.byte 97, Input.error], false, false, false, false, [], 0, 7, 0, 0⟩).ok = false ∧
      (read_from_file 8 CppString.mk0
        ⟨[], false, false, false, false, [], 0, 7, 0, 0⟩).pass.content = [] :=
  ⟨(read_from_file_fails_iff_read_error 8 CppString.mk0
      ⟨[Input.byte 97, Input.error], false, false, false, false, [], 0, 7, 0, 0⟩
      (by decide)).1.mpr ⟨[97], [], rfl, by decide, by decide⟩,
    ((read_from_file_fails_iff_read_error 8 CppString.mk0
      ⟨[], false, false, false, false, [], 0, 7, 0, 0⟩ (by decide)).2 [] (by decide)
      (Or.inl rfl)).2⟩

/-- C10: `login::parse` returns no value exactly when the string holds no `:`
and the prompt it then calls returns no value. -/
theorem parse_none_iff (max_password_size : Nat) (userpass : CppString)
    (verify : Bool) (message : Option (List Nat)) (w : World) :
    (login.parse max_password_size userpass verify message w).1 = none ↔
      (58 ∉ userpass.content ∧
        (password_container.prompt max_password_size verify message w).1 = none) := by
  by_cases h : 58 ∈ userpass.content
  · simp [login.parse, find_some 58 userpass h, h]
  · simp only [login.parse, find_none 58 userpass h]
    rcases hr : (password_container.prompt max_password_size verify message w).1 with _ | p
    · simp [h]
    · simp [h]

/-- C11: in non-interactive mode `prompt` with `verify` set and `prompt`
without it are the same function of the world, whatever the message: the
result and the world left are those of one acquisition by the stream reader
on a default-constructed buffer, and nothing else is read. -/
theorem prompt_stream_skips_confirmation (max_password_size : Nat)
    (message : Option (List Nat)) (w : World) (hfile : w.stdin_is_tty = false) :
    password_container.prompt max_password_size true message w =
        password_container.prompt max_password_size false message w ∧
      password_container.prompt max_password_size true message w =
        (if (read_from_file max_password_size CppString.mk0
              { w with prompt_calls := w.prompt_calls + 1 }).ok
          then some ⟨(read_from_file max_password_size CppString.mk0
              { w with prompt_calls := w.prompt_calls + 1 }).pass⟩
          else none,
          (read_from_file max_password_size CppString.mk0
            { w with prompt_calls := w.prompt_calls + 1 }).world) := by
  constructor
  · simp [password_container.prompt, is_cin_tty, hfile]
  · simp only [password_container.prompt, is_cin_tty, hfile]
    split_ifs <;> simp_all

/-- Witness of C11: the stream `a`, newline, `b`, newline with `verify` set. -/
theorem prompt_stream_skips_confirmation_witness :
    password_container.prompt 8 true none
        ⟨[Input.byte 97, Input.byte 10, Input.byte 98, Input.byte 10], false, false, false,
          false, [], 0, 7, 0, 0⟩ =
      password_container.prompt 8 false none
        ⟨[Input.byte 97, Input.byte 10, Input.byte 98, Input.byte 10], false, false, false,
          false, [], 0, 7, 0, 0⟩ :=
  (prompt_stream_skips_confirmation 8 none
    ⟨[Input.byte 97, Input.byte 10, Input.byte 98, Input.byte 10], false, false, false,
      false, [], 0, 7, 0, 0⟩ rfl).1

/-- Counterexample of C12, with `max_password_size = 2`: after the entry `ab`
the newline that follows is still unread (the claim has it consumed), and a
loop entered on the full buffer `ab` reads neither `c` nor the newline (the
claim has `c` consumed and dropped); so for the POSIX and the Windows
reader. -/
theorem terminator_left_unread_at_maximum :
    (read_from_tty 2 CppString.mk0
      ⟨[97, 98, 10].map Input.byte, true, false, false, false, [], 0, 7, 0, 0⟩).world.stdin
        = [Input.byte 10] ∧
    (read_from_tty_loop 2 ⟨[97, 98], []⟩
      ⟨[Input.byte 99, Input.byte 10], true, false, false, false, [], 0, 7, 0, 0⟩).world.stdin
        = [Input.byte 99, Input.byte 10] ∧
    (read_from_tty_win32 2 CppString.mk0
      ⟨[97, 98, 10].map Input.byte, true, false, false, false, [], 0, 7, 0, 0⟩).world.stdin
        = [Input.byte 10] ∧
    (read_from_tty_win32_loop 2 ⟨[97, 98], []⟩
      ⟨[Input.byte 99, Input.byte 10], true, false, false, false, [], 0, 7, 0, 0⟩).world.stdin
        = [Input.byte 99, Input.byte 10] := by
  refine ⟨?_, ?_, ?_, ?_⟩
  · rw [(read_from_tty_exactly_max 2 [97, 98] [Input.byte 10] CppString.mk0 _ rfl rfl
      (by decide) rfl).1]
    rfl
  · rw [read_from_tty_loop_full 2 _ _ (by decide)]
  · exact (read_from_tty_win32_exactly_max 2 [97, 98] [Input.byte 10] CppString.mk0 _ rfl rfl
      (by decide) rfl).2.2
  · rw [read_from_tty_win32_loop_full 2 _ _ (by decide)]

/-- C12, amended: when the buffer holds `max_password_size` bytes the loop of
the terminal reader returns `true` at once, buffer and world untouched, so no
further keystroke is read; hence an entry of exactly `max_password_size` plain
bytes without backspace typed into an empty buffer succeeds with those bytes
and leaves everything behind them, a terminator included, for the next read.
So for the POSIX and the Windows reader. -/
theorem reader_returns_at_maximum (max_password_size : Nat) (p : CppString) (w : World) :
    (¬ p.size < max_password_size →
      read_from_tty_loop max_password_size p w = ⟨true, p, w⟩ ∧
        read_from_tty_win32_loop max_password_size p w = ⟨true, p, w⟩) ∧
    (∀ (ks : List Nat) (tail : List Input), p.size = 0 → ks.length = max_password_size →
      w.stdin = ks.map Input.byte ++ tail →
      ((∀ k ∈ ks, plain k ∧ k ≠ 127) →
        (read_from_tty max_password_size p w).ok = true ∧
          (read_from_tty max_password_size p w).pass.content = ks ∧
          (read_from_tty max_password_size p w).world.stdin = tail) ∧
      ((∀ k ∈ ks, plain k ∧ k ≠ 8) →
        (read_from_tty_win32 max_password_size p w).ok = true ∧
          (read_from_tty_win32 max_password_size p w).pass.content = ks ∧
          (read_from_tty_win32 max_password_size p w).world.stdin = tail)) := by
  refine ⟨fun hp => ⟨read_from_tty_loop_full _ p w hp, read_from_tty_win32_loop_full _ p w hp⟩,
    fun ks tail hp hlen hin => ⟨fun hks => ?_, fun hks => ?_⟩⟩
  · obtain ⟨e, hc⟩ := read_from_tty_exactly_max max_password_size ks tail p w hp hlen hks hin
    rw [e]
    exact ⟨rfl, hc, rfl⟩
  · exact read_from_tty_win32_exactly_max max_password_size ks tail p w hp hlen hks hin

/-- Witness of C12, amended: `ab`, newline with `max_password_size = 2`. -/
theorem reader_returns_at_maximum_witness :
    ((read_from_tty 2 CppString.mk0
        ⟨[97, 98, 10].map Input.byte, true, false, false, false, [], 0, 7, 0, 0⟩).ok = true ∧
      (read_from_tty 2 CppString.mk0
        ⟨[97, 98, 10].map Input.byte, true, false, false, false, [], 0, 7, 0, 0⟩).pass.content
          = [97, 98] ∧
      (read_from_tty 2 CppString.mk0
        ⟨[97, 98, 10].map Input.byte, true, false, false, false, [], 0, 7, 0, 0⟩).world.stdin
          = [Input.byte 10]) ∧
    (read_from_tty_loop 0 CppString.mk0
        ⟨[Input.byte 10], true, false, false, false, [], 0, 7, 0, 0⟩ =
      ⟨true, CppString.mk0, ⟨[Input.byte 10], true, false, false, false, [], 0, 7, 0, 0⟩⟩ ∧
    read_from_tty_win32_loop 0 CppString.mk0
        ⟨[Input.byte 10], true, false, false, false, [], 0, 7, 0, 0⟩ =
      ⟨true, CppString.mk0, ⟨[Input.byte 10], true, false, false, false, [], 0, 7, 0, 0⟩⟩) :=
  ⟨((reader_returns_at_maximum 2 CppString.mk0
      ⟨[97, 98, 10].map Input.byte, true, false, false, false, [], 0, 7, 0, 0⟩).2 [97, 98]
      [Input.byte 10] rfl rfl rfl).1 (by decide),
    (reader_returns_at_maximum 0 CppString.mk0
      ⟨[Input.byte 10], true, false, false, false, [], 0, 7, 0, 0⟩).1 (by decide)⟩

/-- C13: exactly `max_password_size` bytes that are neither backspace nor
terminator, followed by anything at all, typed into an empty buffer leave the
buffer equal to those bytes. -/
theorem read_from_tty_keeps_first_max_bytes (max_password_size : Nat) (ks : List Nat)
    (extra : List Input) (aPass : CppString) (w : World) (hempty : aPass.size = 0)
    (hlen : ks.length = max_password_size) (hks : ∀ k ∈ ks, plain k ∧ k ≠ 127)
    (hin : w.stdin = ks.map Input.byte ++ extra) :
    (read_from_tty max_password_size aPass w).ok = true ∧
      (read_from_tty max_password_size aPass w).pass.content = ks := by
  obtain ⟨e, hc⟩ :=
    read_from_tty_exactly_max max_password_size ks extra aPass w hempty hlen hks hin
  rw [e]
  exact ⟨rfl, hc⟩

/-- Witness of C13: `abc` then `de` with `max_password_size = 3`. -/
theorem read_from_tty_keeps_first_max_bytes_witness :
    (read_from_tty 3 CppString.mk0
        ⟨[97, 98, 99, 100, 101].map Input.byte, true, false, false, false, [], 0, 7, 0,
          0⟩).ok = true ∧
      (read_from_tty 3 CppString.mk0
        ⟨[97, 98, 99, 100, 101].map Input.byte, true, false, false, false, [], 0, 7, 0,
          0⟩).pass.content = [97, 98, 99] :=
  read_from_tty_keeps_first_max_bytes 3 [97, 98, 99] ([100, 101].map Input.byte)
    CppString.mk0 _ rfl rfl (by decide) rfl

/-- Counterexample of C14: in non-interactive mode, with the message `P` and
the stream `a`, newline, `prompt` succeeds and has written nothing at all to
the display, so not the message. -/
theorem message_not_shown_on_stream :
    (password_container.prompt 8 false (some [80])
      ⟨[Input.byte 97, Input.byte 10], false, false, false, false, [], 0, 7, 0, 0⟩).2.stdout
        = [] ∧
    (password_container.prompt 8 false (some [80])
      ⟨[Input.byte 97, Input.byte 10], false, false, false, false, [], 0, 7, 0, 0⟩).1
        = some ⟨⟨[97], [7, 7, 7, 7, 7, 7, 7]⟩⟩ := by
  constructor
  · exact prompt_file_stdout 8 false (some [80]) _ rfl
  · rw [prompt_file 8 false (some [80]) _ rfl]
    decide

/-- C14, amended: in interactive mode a message that is present is written,
followed by `": "`, before anything else the call writes, and the first entry
is acquired in the world in which it is already on the display (spelled out
for `verify` unset, where there is one acquisition); in non-interactive mode
the call writes nothing to the display. -/
theorem message_shown_in_interactive_mode (max_password_size : Nat) (verify : Bool)
    (message : List Nat) (w : World) :
    (w.stdin_is_tty = true →
      (∃ d : List Nat,
        (password_container.prompt max_password_size verify (some message) w).2.stdout =
          w.stdout ++ (message ++ bytes ": ") ++ d) ∧
      password_container.prompt max_password_size false (some message) w =
        (if (read_from_tty max_password_size CppString.mk0
              (cout (message ++ bytes ": ") { w with prompt_calls := w.prompt_calls + 1 })).ok
          then some ⟨(read_from_tty max_password_size CppString.mk0
              (cout (message ++ bytes ": ") { w with prompt_calls := w.prompt_calls + 1 })).pass⟩
          else none,
          (read_from_tty max_password_size CppString.mk0
            (cout (message ++ bytes ": ")
              { w with prompt_calls := w.prompt_calls + 1 })).world)) ∧
    (w.stdin_is_tty = false →
      (password_container.prompt max_password_size verify (some message) w).2.stdout =
        w.stdout) := by
  refine ⟨fun htty => ⟨prompt_tty_stdout _ verify (some message) w htty, ?_⟩,
    fun hfile => prompt_file_stdout _ verify (some message) w hfile⟩
  rw [prompt_tty _ false (some message) w htty]
  by_cases hok : (read_from_tty max_password_size CppString.mk0
      (show_message (some message) { w with prompt_calls := w.prompt_calls + 1 })).ok = true
  · rw [read_from_tty_verify_single _ (some message) _ _ _ hok]
    have hok' := hok
    simp only [show_message] at hok' ⊢
    simp [hok']
  · have hno : (read_from_tty max_password_size CppString.mk0
        (show_message (some message) { w with prompt_calls := w.prompt_calls + 1 })).ok
        = false := by simpa using hok
    rw [read_from_tty_verify_fail1 _ false (some message) _ _ _ hno]
    have hno' := hno
    simp only [show_message] at hno' ⊢
    simp [hno']

/-- Witness of C14, amended: the message `P` at the terminal and on a
stream. -/
theorem message_shown_in_interactive_mode_witness :
    (∃ d : List Nat,
      (password_container.prompt 8 true (some [80])
        ⟨[Input.byte 97, Input.byte 10], true, false, false, false, [], 0, 7, 0, 0⟩).2.stdout
          = [] ++ ([80] ++ bytes ": ") ++ d) ∧
    (password_container.prompt 8 true (some [80])
      ⟨[Input.byte 97, Input.byte 10], false, false, false, false, [], 0, 7, 0, 0⟩).2.stdout
        = [] :=
  ⟨((message_shown_in_interactive_mode 8 true [80]
      ⟨[Input.byte 97, Input.byte 10], true, false, false, false, [], 0, 7, 0, 0⟩).1 rfl).1,
    (message_shown_in_interactive_mode 8 true [80]
      ⟨[Input.byte 97, Input.byte 10], false, false, false, false, [], 0, 7, 0, 0⟩).2 rfl⟩

/-- C15: a backspace keystroke read while the buffer is empty changes nothing:
the loop goes on with the same buffer and the same display, from the next
keystroke; so for the POSIX reader (code 127) and the Windows reader
(code 8). -/
theorem backspace_on_empty_is_noop (max_password_size : Nat) (p : CppString) (w : World)
    (b : Nat) (rest : List Input) (hempty : p.size = 0) (hmax : 0 < max_password_size)
    (hin : w.stdin = Input.byte b :: rest) :
    (b % 256 = 127 →
      read_from_tty_loop max_password_size p w =
        read_from_tty_loop max_password_size p { w with stdin := rest }) ∧
    (b % 256 = 8 →
      read_from_tty_win32_loop max_password_size p w =
        read_from_tty_win32_loop max_password_size p { w with stdin := rest }) := by
  have he : p.empty = true := by
    simpa [CppString.empty, CppString.size] using hempty
  have hw : w.after rest [] = { w with stdin := rest } := by simp [World.after]
  constructor
  · intro hb
    rw [read_from_tty_loop_key max_password_size p w b rest (by omega) hin (by omega), hb]
    simp [type_key, echoKey, he, hempty, hw]
  · intro hb
    rw [read_from_tty_win32_loop_backspace max_password_size p w b rest (by omega) hin hb]
    simp [type_key, echoKey, he, hempty, hw]

/-- Witness of C15: BACKSPACE then `a`, newline on the empty buffer. -/
theorem backspace_on_empty_is_noop_witness :
    read_from_tty_loop 8 CppString.mk0
        ⟨[Input.byte 127, Input.byte 97, Input.byte 10], true, false, false, false, [], 0, 7,
          0, 0⟩ =
      read_from_tty_loop 8 CppString.mk0
        ⟨[Input.byte 97, Input.byte 10], true, false, false, false, [], 0, 7, 0, 0⟩ ∧
    read_from_tty_win32_loop 8 CppString.mk0
        ⟨[Input.byte 8, Input.byte 97, Input.byte 10], true, false, false, false, [], 0, 7,
          0, 0⟩ =
      read_from_tty_win32_loop 8 CppString.mk0
        ⟨[Input.byte 97, Input.byte 10], true, false, false, false, [], 0, 7, 0, 0⟩ :=
  ⟨(backspace_on_empty_is_noop 8 CppString.mk0
      ⟨[Input.byte 127, Input.byte 97, Input.byte 10], true, false, false, false, [], 0, 7,
        0, 0⟩ 127 [Input.byte 97, Input.byte 10] rfl (by decide) rfl).1 (by decide),
    (backspace_on_empty_is_noop 8 CppString.mk0
      ⟨[Input.byte 8, Input.byte 97, Input.byte 10], true, false, false, false, [], 0, 7,
        0, 0⟩ 8 [Input.byte 97, Input.byte 10] rfl (by decide) rfl).2 (by decide)⟩

/-- C16: whatever the input, an acquisition started on an empty buffer ends
with at most `max_password_size` bytes in the buffer (POSIX reader, Windows
reader, stream reader), hence so does every secret `prompt` returns; and on a
good stream whose first `max_password_size` bytes hold no terminator the
stream reader succeeds with exactly those bytes and leaves the rest unread. -/
theorem maximum_length_enforced (max_password_size : Nat) (p : CppString) (w : World)
    (hempty : p.size = 0) :
    (read_from_tty max_password_size p w).pass.size ≤ max_password_size ∧
    (read_from_tty_win32 max_password_size p w).pass.size ≤ max_password_size ∧
    (read_from_file max_password_size p w).pass.size ≤ max_password_size ∧
    (∀ (verify : Bool) (message : Option (List Nat)) (q : password_container),
      (password_container.prompt max_password_size verify message w).1 = some q →
      q.m_password.size ≤ max_password_size) ∧
    (∀ (bs : List Nat) (rest : List Input), cin_good w → bs.length = max_password_size →
      (∀ b ∈ bs, plain b) → w.stdin = bs.map Input.byte ++ rest →
      (read_from_file max_password_size p w).ok = true ∧
        (read_from_file max_password_size p w).pass.content = bs ∧
        (read_from_file max_password_size p w).world.stdin = rest) := by
  have hc : p.content = [] := List.length_eq_zero.mp hempty
  refine ⟨read_from_tty_size_le _ p w (by omega), ?_, ?_,
    fun v msg q h => prompt_size_le _ v msg w q h, ?_⟩
  · exact read_from_tty_win32_loop_size_le _ _ _ (by rw [reserve_size]; omega)
  · have := read_from_file_loop_size_le max_password_size
      (p.reserve w.fresh max_password_size) w
    rw [reserve_size] at this
    unfold read_from_file
    omega
  · intro bs rest hgood hlen hbs hin
    unfold read_from_file
    rw [read_from_file_loop_bytes rest bs max_password_size _ w hgood
      (plain_not_terminator hbs) (by omega) hin, map_mod_plain bs hbs, hlen, Nat.sub_self]
    refine ⟨rfl, ?_, rfl⟩
    simp [read_from_file_loop, push_all_content, reserve_content, hc]

/-- Witness of C16: the stream `abc` with `max_password_size = 2`. -/
theorem maximum_length_enforced_witness :
    (read_from_file 2 CppString.mk0
      ⟨[97, 98, 99].map Input.byte, false, false, false, false, [], 0, 7, 0, 0⟩).ok = true ∧
    (read_from_file 2 CppString.mk0
      ⟨[97, 98, 99].map Input.byte, false, false, false, false, [], 0, 7, 0, 0⟩).pass.content
        = [97, 98] ∧
    (read_from_file 2 CppString.mk0
      ⟨[97, 98, 99].map Input.byte, false, false, false, false, [], 0, 7, 0, 0⟩).world.stdin
        = [Input.byte 99] :=
  (maximum_length_enforced 2 CppString.mk0
    ⟨[97, 98, 99].map Input.byte, false, false, false, false, [], 0, 7, 0, 0⟩ rfl).2.2.2.2
    [97, 98] [Input.byte 99] (by decide) rfl (by decide) rfl

/-- C17: on every finite input the confirm-and-retry loop returns: run for at
most `n` iterations it gives the result of the loop as soon as `n` is twice
the number of keystrokes left plus two.  It ends either with `true`, and then
on two equal entries when `verify` is set, or with `false` after a keystroke
read failed; and when `max_password_size` is positive an entry on a scrubbed
buffer that succeeds has consumed at least one keystroke. -/
theorem verify_loop_terminates (max_password_size : Nat) (verify : Bool)
    (message : Option (List Nat)) (pass1 pass2 : CppString) (w : World) :
    (∀ n, 2 * w.stdin.length + 2 ≤ n →
      read_from_tty_verify_iter max_password_size verify message n pass1 pass2 w =
        some (read_from_tty_verify max_password_size verify message pass1 pass2 w)) ∧
    (((read_from_tty_verify max_password_size verify message pass1 pass2 w).ok = true ∧
        (verify = true →
          (read_from_tty_verify max_password_size verify message pass1 pass2 w).pass1.content =
            (read_from_tty_verify max_password_size verify message pass1 pass2 w).pass2.content)) ∨
      ((read_from_tty_verify max_password_size verify message pass1 pass2 w).ok = false ∧
        w.read_failures <
          (read_from_tty_verify max_password_size verify message pass1 pass2 w).world.read_failures)) ∧
    (∀ (q : CppString) (w' : World), 0 < max_password_size →
      (read_from_tty max_password_size (clear q) w').ok = true →
      (read_from_tty max_password_size (clear q) w').world.stdin.length < w'.stdin.length) := by
  refine ⟨fun n hn => read_from_tty_verify_iter_enough _ verify message pass1 pass2 w n (by
    split_ifs <;> omega), ?_, fun q w' hm hok =>
      read_from_tty_stdin_lt _ (clear q) w' (by rw [clear_size]; exact hm) hok⟩
  have hf := read_from_tty_verify_frame max_password_size verify message pass1 pass2 w
  rcases hok : (read_from_tty_verify max_password_size verify message pass1 pass2 w).ok
  · right
    rw [hok] at hf
    refine ⟨rfl, ?_⟩
    rw [hf.2.2]
    simp
  · left
    refine ⟨rfl, fun hv => ?_⟩
    subst hv
    exact read_from_tty_verify_ok_equal _ message pass1 pass2 w hok

/-- Witness of C17: `a`, newline, `b`, newline and then end of file. -/
theorem verify_loop_terminates_witness :
    read_from_tty_verify_iter 8 true none 10 CppString.mk0 CppString.mk0
        ⟨[97, 10, 98, 10].map Input.byte, true, false, false, false, [], 0, 7, 0, 0⟩ =
      some (read_from_tty_verify 8 true none CppString.mk0 CppString.mk0
        ⟨[97, 10, 98, 10].map Input.byte, true, false, false, false, [], 0, 7, 0, 0⟩) :=
  (verify_loop_terminates 8 true none CppString.mk0 CppString.mk0
    ⟨[97, 10, 98, 10].map Input.byte, true, false, false, false, [], 0, 7, 0, 0⟩).1 10
    (by decide)

/-- C18: the terminal mode after the terminal reader returns is the mode before
the call, for every buffer and every input, hence on every exit path
(terminator, read failure, maximum reached); so for the POSIX reader, whose
`getch` restores the mode after each keystroke, and for the Windows reader,
which restores it after the loop. -/
theorem terminal_mode_restored (max_password_size : Nat) (p : CppString) (w : World) :
    (read_from_tty max_password_size p w).world.tty_mode = w.tty_mode ∧
      (read_from_tty_win32 max_password_size p w).world.tty_mode = w.tty_mode ∧
      (getch w).2.tty_mode = w.tty_mode :=
  ⟨(read_from_tty_frame max_password_size p w).2.1, rfl, (getch_frame w).2.1⟩

end Stellite
